import Mathlib

/-!
# pgbouncer_exporter: row-to-metric mapping engine (collector.go)

A shallow embedding of `collector.go`: the type coercion layer (`dbToString`,
`dbToFloat64`), the mapping construction (`makeDescMap` and its `convert`
closure), the two row conversion strategies (`metricRowConverter`,
`metricKVConverter`), the namespace query loop (`MetricMapNamespace.Query`) and
the scrape orchestration (`Exporter.scrape`, `Exporter.Collect`,
`Exporter.Describe`).

Conventions of the embedding.

* A Go `string` and the contents of a `[]byte` are both modelled by `String`;
  the conversion `string(v)` keeps the contents.
* A Go `map[string]T` is an association list with distinct-key insertion
  (`GoMap.insert`) and first-match lookup (`GoMap.lookup`); ranging over a map
  is ranging over the list, whose order stands for the iteration order.
* A channel send `ch <- x` appends `x` to the list of sent metrics; what was
  sent before a panic or a process exit stays sent.
* A `float64` is modelled by its value (`Float64`): a rational, a signed zero,
  an infinity or NaN. Conversions, `strconv.ParseFloat` and products round to
  the nearest double, ties to even, as IEEE 754 binary64 does.
* A panic ends a call with what was sent so far; `prometheus.MustNewConstMetric`
  panics on the error of a descriptor (`Desc.err`) and on a number of label
  values that is not the number of label names.
-/

namespace PgbouncerExporter

/-! ## float64 -/

/-- Value of a Go `float64`: NaN, an infinity, a finite value or the negative
zero. `num 0` is the positive zero; a finite `num q` stands for a double when
`q` is representable (`Float64.IsDouble`), which every result of a conversion,
of `strconv.ParseFloat` and of a product is. -/
inductive Float64 where
  | nan
  | posInf
  | negInf
  | num (q : ℚ)
  | negZero
  deriving DecidableEq

namespace Float64

/-- The infinity of the given sign. -/
def inf (neg : Bool) : Float64 := if neg then negInf else posInf

/-- The zero of the given sign. -/
def zero (neg : Bool) : Float64 := if neg then negZero else num 0

/-- The power `2 ^ e` as a rational. -/
def pow2 (e : Int) : ℚ :=
  if 0 ≤ e then ((2 ^ e.toNat : Nat) : ℚ) else 1 / ((2 ^ (-e).toNat : Nat) : ℚ)

/-- Binary logarithm of a positive natural, rounded down, by halving. -/
def lgAux : Nat → Nat → Nat
  | 0, _ => 0
  | fuel + 1, n => if 2 ≤ n then lgAux fuel (n / 2) + 1 else 0

/-- Binary logarithm of a positive natural, rounded down. -/
def lg (n : Nat) : Nat := lgAux n n

/-- Binary logarithm of a positive rational, rounded down. -/
def ilog2 (q : ℚ) : Int :=
  let a : Int := (lg q.num.natAbs : Int) - (lg q.den : Int)
  if pow2 a ≤ q then a else a - 1

/-- Nearest natural of a non-negative rational, a tie going to the even one. -/
def roundHalfEven (x : ℚ) : Nat :=
  let f := Nat.floor x
  let r := x - f
  if r < 1 / 2 then f else if 1 / 2 < r then f + 1 else if f % 2 = 0 then f else f + 1

/-- IEEE 754 rounding to the nearest binary64 value, ties to even, of the
magnitude `q ≥ 0` with the sign `neg`: 53 bits above the binade of `q`, the
spacing never finer than `2 ^ -1074` (subnormals), a zero of that sign when the
result underflows and an infinity when it reaches `2 ^ 1024`. -/
def round (neg : Bool) (q : ℚ) : Float64 :=
  if q = 0 then zero neg
  else
    let k := max (ilog2 q - 52) (-1074)
    let m := roundHalfEven (q / pow2 k)
    if m = 0 then zero neg
    else if pow2 1024 ≤ (m : ℚ) * pow2 k then inf neg
    else num (if neg then -((m : ℚ) * pow2 k) else (m : ℚ) * pow2 k)

/-- The double nearest to a rational: a Go constant or conversion. -/
def ofRat (q : ℚ) : Float64 := round (decide (q < 0)) |q|

/-- Sign bit of a value that is not NaN. -/
def isNeg : Float64 → Bool
  | negInf => true
  | negZero => true
  | num q => decide (q < 0)
  | _ => false

/-- Magnitude of a finite value; `none` for an infinity or NaN. -/
def mag : Float64 → Option ℚ
  | num q => some |q|
  | negZero => some 0
  | _ => none

/-- Go `a * b` on `float64`: the exact product rounded to the nearest double;
an infinity times a zero is NaN. -/
def mul : Float64 → Float64 → Float64
  | nan, _ => nan
  | _, nan => nan
  | a, b =>
    match a.mag, b.mag with
    | some x, some y => round (xor a.isNeg b.isNeg) (x * y)
    | some x, none => if x = 0 then nan else inf (xor a.isNeg b.isNeg)
    | none, some y => if y = 0 then nan else inf (xor a.isNeg b.isNeg)
    | none, none => inf (xor a.isNeg b.isNeg)

/-- Go `a + b` on `float64`, for the sums the collector forms (a gauge or
counter plus a small natural): finite sums are kept exact. -/
def add : Float64 → Float64 → Float64
  | nan, _ => nan
  | _, nan => nan
  | num a, num b => num (a + b)
  | posInf, negInf => nan
  | negInf, posInf => nan
  | posInf, _ => posInf
  | negInf, _ => negInf
  | _, posInf => posInf
  | _, negInf => negInf
  | negZero, negZero => negZero
  | negZero, num b => num b
  | num a, negZero => num a

/-- Go conversion `float64(v)` of an `int64`: the nearest double. -/
def ofInt64 (v : Int) : Float64 := ofRat v

/-- Go conversion `float64(n)` of a slice length (below `2 ^ 53`, exact). -/
def ofNat (n : Nat) : Float64 := num n

/-- The double a value stands for: a finite value rounded, the rest itself. -/
def canon : Float64 → Float64
  | num q => ofRat q
  | x => x

/-- A value that is a double. -/
def IsDouble (x : Float64) : Prop := x.canon = x

instance (x : Float64) : Decidable x.IsDouble := inferInstanceAs (Decidable (x.canon = x))

end Float64

/-! ## strconv -/

/-- Go `lower(c)` of `strconv`: `c | ('x' - 'X')`, as a character code. -/
def lower (c : Char) : Nat := c.toNat ||| 32

/-- A decimal digit `0` to `9`. -/
def isDigit (c : Char) : Bool := decide (48 ≤ c.toNat ∧ c.toNat ≤ 57)

/-- A letter `a` to `f` in either case. -/
def isHexLetter (c : Char) : Bool := decide (97 ≤ lower c ∧ lower c ≤ 102)

/-- Lower-cases an ASCII capital letter (`commonPrefixLenIgnoreCase`). -/
def lowerAscii (c : Char) : Char :=
  if 65 ≤ c.toNat ∧ c.toNat ≤ 90 then Char.ofNat (c.toNat + 32) else c

/-- Go `underscoreOK`, after the optional sign and base prefix: `saw` is the
class of the last character seen, 0 for a digit or base prefix, 1 for an
underscore, 2 for anything else, 3 at the beginning. -/
def underscoreOKLoop (hex : Bool) : List Char → Nat → Bool
  | [], saw => saw ≠ 1
  | c :: cs, saw =>
    if isDigit c || (hex && isHexLetter c) then underscoreOKLoop hex cs 0
    else if c.toNat = 95 then
      if saw ≠ 0 then false else underscoreOKLoop hex cs 1
    else if saw = 1 then false
    else underscoreOKLoop hex cs 2

/-- Go `underscoreOK`: underscores only between digits or between a base
prefix and a digit. -/
def underscoreOK (s : List Char) : Bool :=
  let s1 := match s with
    | c :: cs => if c.toNat = 45 ∨ c.toNat = 43 then cs else c :: cs
    | [] => []
  match s1 with
  | c0 :: c1 :: cs =>
    if c0.toNat = 48 ∧ (lower c1 = 98 ∨ lower c1 = 111 ∨ lower c1 = 120) then
      underscoreOKLoop (decide (lower c1 = 120)) cs 0
    else underscoreOKLoop false s1 3
  | _ => underscoreOKLoop false s1 3

/-- The mantissa loop of `readFloat`: the digits read as a natural in the
base, the number of digits after the point, whether a point and a digit were
seen, and the rest of the text. -/
def readMantissa (hex : Bool) : List Char → Nat → Nat → Bool → Bool → Nat × Nat × Bool × List Char
  | [], mant, frac, _, sawdigits => (mant, frac, sawdigits, [])
  | c :: cs, mant, frac, sawdot, sawdigits =>
    if c.toNat = 95 then readMantissa hex cs mant frac sawdot sawdigits
    else if c.toNat = 46 then
      if sawdot then (mant, frac, sawdigits, c :: cs)
      else readMantissa hex cs mant frac true sawdigits
    else if isDigit c then
      readMantissa hex cs (mant * (if hex then 16 else 10) + (c.toNat - 48))
        (if sawdot then frac + 1 else frac) sawdot true
    else if hex && isHexLetter c then
      readMantissa hex cs (mant * 16 + (lower c - 97 + 10))
        (if sawdot then frac + 1 else frac) sawdot true
    else (mant, frac, sawdigits, c :: cs)

/-- The digits of the exponent of `readFloat`, underscores skipped; the value
stops growing once it has reached 10000. -/
def readExpDigits : List Char → Nat → Nat × List Char
  | [], e => (e, [])
  | c :: cs, e =>
    if c.toNat = 95 then readExpDigits cs e
    else if isDigit c then readExpDigits cs (if e < 10000 then e * 10 + (c.toNat - 48) else e)
    else (e, c :: cs)

/-- The exponent part of `readFloat`: `none` for a syntax error, else the
signed exponent and the rest of the text. The marker is `e` for a decimal and
`p` for a hexadecimal mantissa, which must have an exponent. -/
def readExp (hex : Bool) : List Char → Option (Int × List Char)
  | [] => if hex then none else some (0, [])
  | c :: cs =>
    if lower c = (if hex then 112 else 101) then
      let signed : Bool × List Char :=
        match cs with
        | d :: ds => if d.toNat = 43 then (false, ds) else if d.toNat = 45 then (true, ds) else (false, cs)
        | [] => (false, [])
      match signed.2 with
      | [] => none
      | d :: ds =>
        if isDigit d then
          match readExpDigits (d :: ds) 0 with
          | (e, rest) => some (if signed.1 then -(e : Int) else (e : Int), rest)
        else none
    else if hex then none else some (0, c :: cs)

/-- The power `base ^ e` times `m`, as a rational. -/
def scale (m base : Nat) (e : Int) : ℚ :=
  if 0 ≤ e then ((m * base ^ e.toNat : Nat) : ℚ) else (m : ℚ) / ((base ^ (-e).toNat : Nat) : ℚ)

/-- The optional sign of `special` and `readFloat`: whether the text is
negative, and the text after the sign. -/
def readSign (cs : List Char) : Bool × List Char :=
  match cs with
  | c :: rest =>
    if c.toNat = 45 then (true, rest) else if c.toNat = 43 then (false, rest) else (false, cs)
  | [] => (false, [])

/-- Whether `readFloat` reads a hexadecimal mantissa: the text after the sign
is `0x` or `0X` and at least one more character. -/
def isHexFloat (body : List Char) : Bool :=
  match body with
  | c0 :: c1 :: _ :: _ => decide (c0.toNat = 48 ∧ lower c1 = 120)
  | _ => false

/-- Go `readFloat` after the sign and the base mark, and the conversion of
what it read: the mantissa must have a digit, the exponent must be well formed
and end the text `cs`, whose underscores `underscoreOK` must accept. The value
is the exact value of the text rounded to the nearest double; a text that
rounds to an infinity is a range error. `none` is a returned error. -/
def readFloat (cs : List Char) (neg hex : Bool) (digits : List Char) : Option Float64 :=
  match readMantissa hex digits 0 0 false false with
  | (mant, frac, sawdigits, rest) =>
    if sawdigits = false then none else
    match readExp hex rest with
    | some (e, []) =>
      if underscoreOK cs = false then none else
      match Float64.round neg
          (if hex then scale mant 2 (e - 4 * frac) else scale mant 10 (e - frac)) with
      | Float64.posInf => none
      | Float64.negInf => none
      | x => some x
    | _ => none

/-- Go `strconv.ParseFloat(s, 64)`: `none` is a returned error (syntax or
range). The special names `inf`, `infinity` (signed or not) and `nan` in any
case; else `readFloat`: an optional sign, a decimal mantissa with an optional
exponent `e`, or a hexadecimal mantissa after `0x` with its exponent `p`,
underscores allowed where `underscoreOK` accepts them, the whole text being
consumed. -/
def ParseFloat (s : String) : Option Float64 :=
  if s.toList.map lowerAscii = "nan".toList then some Float64.nan
  else if (readSign s.toList).2.map lowerAscii = "inf".toList ∨
      (readSign s.toList).2.map lowerAscii = "infinity".toList then
    some (Float64.inf (readSign s.toList).1)
  else
    readFloat s.toList (readSign s.toList).1 (isHexFloat (readSign s.toList).2)
      (if isHexFloat (readSign s.toList).2 then (readSign s.toList).2.drop 2
        else (readSign s.toList).2)

/-- Go `strconv.FormatInt(v, 10)`. -/
def FormatInt (v : Int) : String := toString v

/-! ## Database values and the type coercion layer -/

/-- Dynamic value of a scanned column (`interface{}` filled by `rows.Scan`):
the value types a `database/sql` driver produces. `bool` is the one type that
neither coercion function handles (their `default` arm). -/
inductive DBValue where
  | null
  | int64 (v : Int)
  | float64 (v : Float64)
  | time (unix : Int)
  | bytes (v : String)
  | string (v : String)
  | bool (v : Bool)
  deriving DecidableEq

/-- Go `dbToFloat64`: converts a column value to a `float64`; the flag is
false when the value cannot be converted. -/
def dbToFloat64 (t : DBValue) : Float64 × Bool :=
  match t with
  | .int64 v => (Float64.ofInt64 v, true)
  | .float64 v => (v, true)
  | .time unix => (Float64.ofInt64 unix, true)
  | .bytes v =>
    match ParseFloat v with
    | none => (Float64.nan, false)
    | some result => (result, true)
  | .string v =>
    match ParseFloat v with
    | none => (Float64.nan, false)
    | some result => (result, true)
  | .null => (Float64.nan, true)
  | .bool _ => (Float64.nan, false)

/-- Go `dbToString`: converts a column value to a label string; the flag is
false when the type is not handled. `sprintFloat` stands for
`fmt.Sprintf("%v", v)` on a float64: the shortest-digits text of a double is
not modelled, so it is a parameter. On an int64 `fmt.Sprintf("%v", v)` is the
decimal text. -/
def dbToString (sprintFloat : Float64 → String) (t : DBValue) : String × Bool :=
  match t with
  | .int64 v => (FormatInt v, true)
  | .float64 v => (sprintFloat v, true)
  | .time unix => (FormatInt unix, true)
  | .null => ("", true)
  | .bytes v => (v, true)
  | .string v => (v, true)
  | .bool _ => ("", false)

/-! ## Go maps -/

/-- Go `map[string]β`: an association list; its order is the iteration order. -/
abbrev GoMap (β : Type) := List (String × β)

namespace GoMap

/-- Go `v, ok := m[k]`. -/
def lookup {β : Type} (m : GoMap β) (k : String) : Option β :=
  match m with
  | [] => none
  | (k1, v) :: rest => if k1 = k then some v else lookup rest k

/-- Go `m[k] = v`: overwrites the entry of `k` or adds one. -/
def insert {β : Type} (m : GoMap β) (k : String) (v : β) : GoMap β :=
  match m with
  | [] => [(k, v)]
  | (k1, v1) :: rest => if k1 = k then (k, v) :: rest else (k1, v1) :: insert rest k v

/-- Go `m[k]` for an integer-valued map: the zero value when `k` is absent. -/
def index (m : GoMap Nat) (k : String) : Nat :=
  match lookup m k with
  | some i => i
  | none => 0

end GoMap

/-! ## Mapping definition -/

/-- Modelled from the spec: the declaration of the `ColumnUsage` type and of
its constants `LABEL`, `COUNTER`, `GAUGE`, `GAUGE_MS` is missing from the
source. The source compares usages with `==` and switches over the constants,
so it is a Go enumeration over a basic type: `other` stands for every value of
that type besides the four constants. -/
inductive ColumnUsage where
  | LABEL
  | COUNTER
  | GAUGE
  | GAUGE_MS
  | other (code : Nat)
  deriving DecidableEq

/-- Modelled from the spec: the declaration of the `ColumnMapping` struct is
missing from the source; these are the fields `convert` reads. -/
structure ColumnMapping where
  usage : ColumnUsage
  promMetricName : String
  description : String
  deriving DecidableEq

/-- Go `prometheus.ValueType`, for the two kinds used. -/
inductive ValueType where
  | CounterValue
  | GaugeValue
  deriving DecidableEq

/-- Go `prometheus.Desc`: fully-qualified name, help text and the names of the
variable labels (no constant labels are ever passed). -/
structure Desc where
  fqName : String
  help : String
  variableLabels : List String
  deriving DecidableEq

/-- Go `prometheus.NewDesc(fqName, help, variableLabels, nil)`. The error the
library records in the descriptor is a function of the name and the label
names, kept as `Desc.err`. -/
def NewDesc (fqName help : String) (variableLabels : List String) : Desc :=
  { fqName := fqName, help := help, variableLabels := variableLabels }

/-- An ASCII letter. -/
def isLetter (c : Char) : Bool :=
  decide ((97 ≤ c.toNat ∧ c.toNat ≤ 122) ∨ (65 ≤ c.toNat ∧ c.toNat ≤ 90))

/-- A character of a metric or label name: a letter, `_`, a colon where
`colon` allows it, or a digit anywhere but in first position. -/
def isNameChar (colon first : Bool) (c : Char) : Bool :=
  isLetter c || decide (c.toNat = 95) || (colon && decide (c.toNat = 58)) ||
    (!first && isDigit c)

/-- Go `model.IsValidMetricName` of the library: a non-empty name matching
`[a-zA-Z_:][a-zA-Z0-9_:]*`. -/
def IsValidMetricName (n : String) : Bool :=
  match n.toList with
  | [] => false
  | c :: cs => isNameChar true true c && cs.all (isNameChar true false)

/-- Go `model.LabelName.IsValid` of the library: a non-empty name matching
`[a-zA-Z_][a-zA-Z0-9_]*`. -/
def LabelName.IsValid (l : String) : Bool :=
  match l.toList with
  | [] => false
  | c :: cs => isNameChar false true c && cs.all (isNameChar false false)

/-- Go `checkLabelName` of the library: a valid label name that does not start
with the reserved `__`. -/
def checkLabelName (l : String) : Bool :=
  LabelName.IsValid l &&
    match l.toList with
    | a :: b :: _ => !(decide (a.toNat = 95) && decide (b.toNat = 95))
    | _ => true

/-- Whether `NewDesc` recorded an error in the descriptor (its field `err`):
the name is no valid metric name, a variable label is no valid label name, or
two variable labels have the same name. The help text is not checked. -/
def Desc.err (d : Desc) : Bool :=
  !IsValidMetricName d.fqName || d.variableLabels.any (fun l => !checkLabelName l) ||
    !decide d.variableLabels.Nodup

/-- A sample: what the registry reads from a sent `prometheus.Metric`. -/
structure Metric where
  desc : Desc
  valType : ValueType
  value : Float64
  labelValues : List String
  deriving DecidableEq

/-- A run-time panic. -/
inductive Panic where
  | indexOutOfRange
  | labelCardinality
  | descriptorError
  deriving DecidableEq

/-- Go `prometheus.MustNewConstMetric(desc, valueType, value, labelValues...)`:
`NewConstMetric` returns the error of the descriptor when it has one, else an
error when the number of label values differs from the number of variable
labels of the descriptor, and the `Must` variant panics on the error. Label
values are texts, so the library's check that they are valid UTF-8 passes. -/
def MustNewConstMetric (desc : Desc) (valueType : ValueType) (value : Float64)
    (labelValues : List String) : Except Panic Metric :=
  if desc.err then .error .descriptorError
  else if labelValues.length = desc.variableLabels.length then
    .ok { desc := desc, valType := valueType, value := value, labelValues := labelValues }
  else .error .labelCardinality

/-- Modelled from the spec: the declaration of the `MetricMap` struct is
missing from the source; these are the fields `convert` writes. -/
structure MetricMap where
  vtype : ValueType
  desc : Desc
  multiplier : Float64
  deriving DecidableEq

/-- The two functions stored in `rowFunc` (type `RowConverter`). -/
inductive RowConverter where
  | metricRowConverter
  | metricKVConverter
  deriving DecidableEq

/-- Modelled from the spec: the declaration of the `MetricMapNamespace` struct
is missing from the source; these are the fields `convert` writes. -/
structure MetricMapNamespace where
  namespace_ : String
  columnMappings : GoMap MetricMap
  labels : List String
  rowFunc : RowConverter
  deriving DecidableEq

/-- Go `fmt.Sprintf("%s_%s_%s", a, b, c)`. -/
def sprintfName (a b c : String) : String := a ++ "_" ++ b ++ "_" ++ c

/-- The descriptor `convert` builds for one column (lines 324-327). -/
def makeDescMap.columnDesc (metricNamespace namespace_ : String) (labels : List String)
    (columnName : String) (columnMapping : ColumnMapping) : Desc :=
  if columnMapping.promMetricName ≠ "" then
    NewDesc (sprintfName metricNamespace namespace_ columnMapping.promMetricName)
      columnMapping.description labels
  else
    NewDesc (sprintfName metricNamespace namespace_ columnName) columnMapping.description labels

/-- One iteration of the second loop of `convert` (lines 322-349). -/
def makeDescMap.convertStep (metricNamespace namespace_ : String) (labels : List String)
    (thisMap : GoMap MetricMap) (entry : String × ColumnMapping) : GoMap MetricMap :=
  let desc := makeDescMap.columnDesc metricNamespace namespace_ labels entry.1 entry.2
  match entry.2.usage with
  | .COUNTER =>
    thisMap.insert entry.1 { vtype := .CounterValue, desc := desc, multiplier := Float64.num 1 }
  | .GAUGE =>
    thisMap.insert entry.1 { vtype := .GaugeValue, desc := desc, multiplier := Float64.num 1 }
  | .GAUGE_MS =>
    thisMap.insert entry.1
      { vtype := .GaugeValue, desc := desc, multiplier := Float64.ofRat (1 / 1000000) }
  | _ => thisMap

/-- The entry the `switch` of `convert` (lines 329-348) stores for a column of
usage `u` and descriptor `desc`; `none` when no arm matches. -/
def makeDescMap.entryFor (desc : Desc) (u : ColumnUsage) : Option MetricMap :=
  match u with
  | .COUNTER => some { vtype := .CounterValue, desc := desc, multiplier := Float64.num 1 }
  | .GAUGE => some { vtype := .GaugeValue, desc := desc, multiplier := Float64.num 1 }
  | .GAUGE_MS =>
    some { vtype := .GaugeValue, desc := desc, multiplier := Float64.ofRat (1 / 1000000) }
  | _ => none

/-- The label names `convert` collects in its first loop (lines 316-321). -/
def makeDescMap.labelNames (mappings : GoMap ColumnMapping) : List String :=
  (mappings.filter (fun entry => entry.2.usage = ColumnUsage.LABEL)).map (fun entry => entry.1)

/-- The closure `convert` of `makeDescMap` (lines 313-351). -/
def makeDescMap.convert (metricNamespace namespace_ : String) (mappings : GoMap ColumnMapping)
    (converter : RowConverter) : MetricMapNamespace :=
  let labels := makeDescMap.labelNames mappings
  { namespace_ := namespace_
    columnMappings := mappings.foldl (makeDescMap.convertStep metricNamespace namespace_ labels) []
    labels := labels
    rowFunc := converter }

/-- Go `makeDescMap`; the package tables `metricRowMaps` and `metricKVMaps`
are missing from the source and taken as parameters. -/
def makeDescMap (metricRowMaps metricKVMaps : GoMap (GoMap ColumnMapping))
    (metricNamespace : String) : List MetricMapNamespace :=
  metricRowMaps.map (fun t => makeDescMap.convert metricNamespace t.1 t.2 .metricRowConverter) ++
  metricKVMaps.map (fun t => makeDescMap.convert metricNamespace t.1 t.2 .metricKVConverter)

/-! ## Row conversion strategies -/

/-- Modelled from the spec: the declaration of the `rowResult` struct is
missing from the source; these are the fields `Query` fills. -/
structure rowResult where
  ColumnNames : List String
  ColumnIdx : GoMap Nat
  ColumnData : List DBValue
  deriving DecidableEq

/-- An `error` value built by the collector, by the place that builds it. The
text of an underlying driver error is not kept. -/
inductive Error where
  | queryFailed (namespace_ : String)
  | columnListFailed (namespace_ : String)
  | rowScanFailed (namespace_ : String)
  | rowsErr
  | parseColumn (namespace_ columnName : String) (value : DBValue)
  | kvNotEnoughColumns (namespace_ : String) (data : List DBValue)
  | kvKeyNotString (namespace_ : String) (data : List DBValue)
  | kvValue (namespace_ key : String) (value : DBValue)
  deriving DecidableEq

/-- How a call ends: it returns its non-fatal errors and an optional fatal
error, or it panics. -/
inductive Outcome where
  | returned (nonFatal : List Error) (fatal : Option Error)
  | panicked (p : Panic)
  deriving DecidableEq

/-- A call of a row converter or of `Query`: the metrics sent on the channel,
in order, and how the call ended. -/
structure Run where
  sent : List Metric
  outcome : Outcome
  deriving DecidableEq

/-- The body of the first loop of `metricRowConverter` (lines 74-81) for one
label name: the value it appends, `none` when it appends nothing (a column
value that is neither nil, a string nor an int64, or no slot at the index). -/
def metricRowConverter.labelValue (result : rowResult) (name : String) : Option String :=
  match result.ColumnData[result.ColumnIdx.index name]? with
  | some DBValue.null => some ""
  | some (DBValue.string v) => some v
  | some (DBValue.int64 v) => some (FormatInt v)
  | _ => none

/-- First loop of `metricRowConverter` (lines 71-82): the label values. -/
def metricRowConverter.labelValues (result : rowResult) :
    List String → List String → Except Panic (List String)
  | [], labelValues => .ok labelValues
  | name :: rest, labelValues =>
    match result.ColumnData[result.ColumnIdx.index name]? with
    | none => .error .indexOutOfRange
    | some DBValue.null => metricRowConverter.labelValues result rest (labelValues ++ [""])
    | some (DBValue.string v) => metricRowConverter.labelValues result rest (labelValues ++ [v])
    | some (DBValue.int64 v) => metricRowConverter.labelValues result rest (labelValues ++ [FormatInt v])
    | some _ => metricRowConverter.labelValues result rest labelValues

/-- Second loop of `metricRowConverter` (lines 84-97), from column `idx` on. -/
def metricRowConverter.columns (m : MetricMapNamespace) (result : rowResult)
    (labelValues : List String) : Nat → List String → List Metric → List Error → Run
  | _, [], sent, nonFatalErrors => { sent := sent, outcome := .returned nonFatalErrors none }
  | idx, columnName :: rest, sent, nonFatalErrors =>
    match m.columnMappings.lookup columnName with
    | some metricMapping =>
      match result.ColumnData[idx]? with
      | none => { sent := sent, outcome := .panicked .indexOutOfRange }
      | some data =>
        match dbToFloat64 data with
        | (_, false) =>
          metricRowConverter.columns m result labelValues (idx + 1) rest sent
            (nonFatalErrors ++ [Error.parseColumn m.namespace_ columnName data])
        | (value, true) =>
          match MustNewConstMetric metricMapping.desc metricMapping.vtype
              (value.mul metricMapping.multiplier) labelValues with
          | .error p => { sent := sent, outcome := .panicked p }
          | .ok metric =>
            metricRowConverter.columns m result labelValues (idx + 1) rest (sent ++ [metric])
              nonFatalErrors
    | none => metricRowConverter.columns m result labelValues (idx + 1) rest sent nonFatalErrors

/-- Go `metricRowConverter`: the wide-row strategy. -/
def metricRowConverter (m : MetricMapNamespace) (result : rowResult) : Run :=
  match metricRowConverter.labelValues result m.labels [] with
  | .error p => { sent := [], outcome := .panicked p }
  | .ok labelValues => metricRowConverter.columns m result labelValues 0 result.ColumnNames [] []

/-- Go `metricKVConverter`: the key/value strategy. -/
def metricKVConverter (m : MetricMapNamespace) (result : rowResult) : Run :=
  if result.ColumnData.length < 2 then
    { sent := [], outcome := .returned [] (some (.kvNotEnoughColumns m.namespace_ result.ColumnData)) }
  else
    match result.ColumnData[0]? with
    | some (DBValue.string key) =>
      match m.columnMappings.lookup key with
      | some metricMapping =>
        match result.ColumnData[1]? with
        | none => { sent := [], outcome := .panicked .indexOutOfRange }
        | some data =>
          match dbToFloat64 data with
          | (_, false) =>
            { sent := [], outcome := .returned [Error.kvValue m.namespace_ key data] none }
          | (value, true) =>
            match MustNewConstMetric metricMapping.desc metricMapping.vtype
                (value.mul metricMapping.multiplier) [] with
            | .error p => { sent := [], outcome := .panicked p }
            | .ok metric => { sent := [metric], outcome := .returned [] none }
      | none => { sent := [], outcome := .returned [] none }
    | _ => { sent := [], outcome := .returned [] (some (.kvKeyNotString m.namespace_ result.ColumnData)) }

/-- Call of the function stored in `rowFunc`. -/
def RowConverter.call (f : RowConverter) (m : MetricMapNamespace) (result : rowResult) : Run :=
  match f with
  | .metricRowConverter => PgbouncerExporter.metricRowConverter m result
  | .metricKVConverter => PgbouncerExporter.metricKVConverter m result

/-! ## Namespace query -/

/-- The row set `db.Query` returns: the column names (`none` when
`rows.Columns()` fails), one entry per successful `rows.Next()` (the values
`rows.Scan` reads, or `none` when it fails), and whether `rows.Err()` reports
an error after the iteration. -/
structure Rows where
  columns : Option (List String)
  rows : List (Option (List DBValue))
  err : Bool

/-- The query executor `*sql.DB` as one scrape sees it: whether `Ping`
succeeds and what `db.Query` answers to a query text (`none` for an error). -/
structure DB where
  ping : Bool
  query : String → Option Rows

/-- The lookup map of column indices (lines 35-38), from column `i` on. -/
def MetricMapNamespace.Query.columnIdx : Nat → List String → GoMap Nat → GoMap Nat
  | _, [], idx => idx
  | i, n :: rest, idx => MetricMapNamespace.Query.columnIdx (i + 1) rest (idx.insert n i)

/-- The row buffer `Query` allocates (lines 28-44). -/
def MetricMapNamespace.Query.newResult (columnNames : List String) : rowResult :=
  { ColumnNames := columnNames
    ColumnIdx := MetricMapNamespace.Query.columnIdx 0 columnNames []
    ColumnData := List.replicate columnNames.length DBValue.null }

/-- Go `rows.Scan(scanArgs...)` into the slots of the row buffer: fails when
the row cannot be read or does not have one value per destination. -/
def MetricMapNamespace.Query.scan (result : rowResult) (row : Option (List DBValue)) :
    Option rowResult :=
  match row with
  | none => none
  | some values =>
    if values.length = result.ColumnData.length then some { result with ColumnData := values }
    else none

/-- The row loop of `Query` and what follows it (lines 48-66). -/
def MetricMapNamespace.Query.rowsLoop (m : MetricMapNamespace) (rowsErr : Bool) :
    rowResult → List (Option (List DBValue)) → List Metric → List Error → Run
  | _, [], sent, nonfatalErrors =>
    { sent := sent
      outcome := .returned (if rowsErr then nonfatalErrors ++ [Error.rowsErr] else nonfatalErrors) none }
  | result, row :: rest, sent, nonfatalErrors =>
    match MetricMapNamespace.Query.scan result row with
    | none => { sent := sent, outcome := .returned [] (some (.rowScanFailed m.namespace_)) }
    | some result1 =>
      match m.rowFunc.call m result1 with
      | { sent := sent1, outcome := .panicked p } => { sent := sent ++ sent1, outcome := .panicked p }
      | { sent := sent1, outcome := .returned n (some e) } =>
        { sent := sent ++ sent1, outcome := .returned (nonfatalErrors ++ n) (some e) }
      | { sent := sent1, outcome := .returned n none } =>
        MetricMapNamespace.Query.rowsLoop m rowsErr result1 rest (sent ++ sent1) (nonfatalErrors ++ n)

/-- Go `(*MetricMapNamespace).Query`. -/
def MetricMapNamespace.Query (m : MetricMapNamespace) (db : DB) : Run :=
  match db.query ("SHOW " ++ m.namespace_ ++ ";") with
  | none => { sent := [], outcome := .returned [] (some (.queryFailed m.namespace_)) }
  | some rows =>
    match rows.columns with
    | none => { sent := [], outcome := .returned [] (some (.columnListFailed m.namespace_)) }
    | some columnNames =>
      MetricMapNamespace.Query.rowsLoop m rows.err
        (MetricMapNamespace.Query.newResult columnNames) rows.rows [] []

/-! ## Collector -/

/-- Modelled from the spec: the declaration of the `Exporter` struct is missing
from the source. The four meta-metrics are kept by their current value; the
`db` handle is passed to each scrape instead, and the mutex has no content. -/
structure Exporter where
  metricMap : List MetricMapNamespace
  namespace_ : String
  up : Float64
  duration : Float64
  totalScrapes : Float64
  error : Float64
  deriving DecidableEq

/-- Go `prometheus.BuildFQName(namespace, "", name)`. -/
def BuildFQName (namespace_ name : String) : String :=
  if name = "" then "" else if namespace_ ≠ "" then namespace_ ++ "_" ++ name else name

/-- Go `NewExporter`, once `getDB` has succeeded; the tables of `makeDescMap`
are parameters. -/
def NewExporter (metricRowMaps metricKVMaps : GoMap (GoMap ColumnMapping))
    (namespace_ : String) : Exporter :=
  { metricMap := makeDescMap metricRowMaps metricKVMaps namespace_
    namespace_ := namespace_
    up := Float64.num 0
    duration := Float64.num 0
    totalScrapes := Float64.num 0
    error := Float64.num 0 }

/-- How a scrape ends: it returns, the process exits in `log.Fatal`, or it
panics. -/
inductive Ending where
  | returned
  | exited
  | panicked (p : Panic)
  deriving DecidableEq

/-- A call of `scrape` or `Collect`: the metrics sent, the exporter state
afterwards and how the call ended. -/
structure ScrapeRun where
  sent : List Metric
  exporter : Exporter
  ending : Ending
  deriving DecidableEq

/-- The loop of `scrape` over the namespace mappings (lines 294-307). -/
def Exporter.scrape.namespaces (db : DB) :
    List MetricMapNamespace → Exporter → List Metric → ScrapeRun
  | [], e, sent => { sent := sent, exporter := e, ending := .returned }
  | mapping :: rest, e, sent =>
    match mapping.Query db with
    | { sent := sent1, outcome := .panicked p } =>
      { sent := sent ++ sent1, exporter := e, ending := .panicked p }
    | { sent := sent1, outcome := .returned _ (some _) } =>
      { sent := sent ++ sent1, exporter := e, ending := .exited }
    | { sent := sent1, outcome := .returned nonfatal none } =>
      Exporter.scrape.namespaces db rest
        { e with error := e.error.add (Float64.ofNat nonfatal.length) } (sent ++ sent1)

/-- Go `(*Exporter).scrape`; `elapsed` is `time.Since(begun).Seconds()` as the
deferred function reads it. The deferred function runs when the scrape returns
or panics, not when the process exits. -/
def Exporter.scrape (e : Exporter) (db : DB) (elapsed : Float64) : ScrapeRun :=
  let e1 := { e with error := Float64.num 0, totalScrapes := e.totalScrapes.add (Float64.num 1) }
  if db.ping = false then
    { sent := []
      exporter := { e1 with error := Float64.num 1, up := Float64.num 0, duration := elapsed }
      ending := .returned }
  else
    match Exporter.scrape.namespaces db e.metricMap { e1 with up := Float64.num 1 } [] with
    | { sent := sent, exporter := e2, ending := .exited } =>
      { sent := sent, exporter := e2, ending := .exited }
    | { sent := sent, exporter := e2, ending := ending } =>
      { sent := sent, exporter := { e2 with duration := elapsed }, ending := ending }

/-- The sample of the gauge `duration`. -/
def Exporter.durationMetric (e : Exporter) : Metric :=
  { desc := NewDesc (BuildFQName e.namespace_ "last_scrape_duration_seconds")
      "Duration of the last scrape of metrics from PgBouncer." []
    valType := .GaugeValue, value := e.duration, labelValues := [] }

/-- The sample of the gauge `up`. -/
def Exporter.upMetric (e : Exporter) : Metric :=
  { desc := NewDesc (BuildFQName e.namespace_ "up") "Was the PgBouncer instance query successful?" []
    valType := .GaugeValue, value := e.up, labelValues := [] }

/-- The sample of the counter `totalScrapes`. -/
def Exporter.totalScrapesMetric (e : Exporter) : Metric :=
  { desc := NewDesc (BuildFQName e.namespace_ "scrapes_total")
      "Total number of times PgBouncer has been scraped for metrics." []
    valType := .CounterValue, value := e.totalScrapes, labelValues := [] }

/-- The sample of the gauge `error`. -/
def Exporter.errorMetric (e : Exporter) : Metric :=
  { desc := NewDesc (BuildFQName e.namespace_ "last_scrape_error")
      "Whether the last scrape of metrics from PgBouncer resulted in an error (1 for error, 0 for success)." []
    valType := .GaugeValue, value := e.error, labelValues := [] }

/-- Go `(*Exporter).Collect`. -/
def Exporter.Collect (e : Exporter) (db : DB) (elapsed : Float64) : ScrapeRun :=
  match e.scrape db elapsed with
  | { sent := sent, exporter := e1, ending := .returned } =>
    { sent := sent ++ [e1.durationMetric, e1.upMetric, e1.totalScrapesMetric, e1.errorMetric]
      exporter := e1
      ending := .returned }
  | r => r

/-- Number of non-fatal errors a call returned (none when it panicked). -/
def Run.nonFatalCount (r : Run) : Nat :=
  match r.outcome with
  | .returned nonFatal _ => nonFatal.length
  | .panicked _ => 0

/-- The non-fatal errors a call returned (none when it panicked). -/
def Run.nonFatal (r : Run) : List Error :=
  match r.outcome with
  | .returned nonFatal _ => nonFatal
  | .panicked _ => []

/-- A call of `Describe`: the descriptors forwarded to the caller's channel,
in order, the exporter state afterwards and how the call ended. -/
structure DescribeRun where
  descs : List Desc
  exporter : Exporter
  ending : Ending
  deriving DecidableEq

/-- Go `(*Exporter).Describe`: runs `Collect` on an internal channel while a
goroutine forwards `m.Desc()` of every metric received, in order, and waits
for that goroutine once `Collect` has returned. -/
def Exporter.Describe (e : Exporter) (db : DB) (elapsed : Float64) : DescribeRun :=
  match e.Collect db elapsed with
  | { sent := sent, exporter := e1, ending := ending } =>
    { descs := sent.map (fun m => m.desc), exporter := e1, ending := ending }

/-- The row buffer `Query` hands to `rowFunc` once a row of `values` has been
scanned for the columns `columnNames`. -/
def rowBuffer (columnNames : List String) (values : List DBValue) : rowResult :=
  { MetricMapNamespace.Query.newResult columnNames with ColumnData := values }

/-! ## float64: rounding to the nearest double -/

namespace Float64

/-- The power `pow2 e` is `2 ^ e`. -/
theorem pow2_eq (e : Int) : pow2 e = (2 : ℚ) ^ e := by
  unfold pow2
  split
  · rename_i h
    obtain ⟨n, rfl⟩ := Int.eq_ofNat_of_zero_le h
    simp
  · rename_i h
    have h1 : e < 0 := by omega
    obtain ⟨n, hn⟩ := Int.eq_ofNat_of_zero_le (by omega : 0 ≤ -e)
    have he : e = -(n : Int) := by omega
    subst he
    simp

/-- A power of two is positive. -/
theorem pow2_pos (e : Int) : 0 < pow2 e := by
  rw [pow2_eq]; positivity

/-- With enough fuel the halving loop finds the binade of a positive natural. -/
theorem lgAux_spec : ∀ (fuel n : Nat), n ≤ fuel → 0 < n →
    2 ^ lgAux fuel n ≤ n ∧ n < 2 ^ (lgAux fuel n + 1) := by
  intro fuel
  induction fuel with
  | zero => intro n h1 h2; omega
  | succ fuel ih =>
    intro n h1 h2
    unfold lgAux
    split
    · rename_i h
      have := ih (n / 2) (by omega) (by omega)
      obtain ⟨a, b⟩ := this
      constructor
      · rw [pow_succ]; omega
      · rw [pow_succ]; omega
    · simp; omega

/-- The binary logarithm brackets a positive natural. -/
theorem lg_spec (n : Nat) (h : 0 < n) : 2 ^ lg n ≤ n ∧ n < 2 ^ (lg n + 1) :=
  lgAux_spec n n le_rfl h


/-- A positive rational lies in one binade only. -/
theorem binade_unique (q : ℚ) (a b : Int)
    (ha : (2 : ℚ) ^ a ≤ q) (ha2 : q < (2 : ℚ) ^ (a + 1))
    (hb : (2 : ℚ) ^ b ≤ q) (hb2 : q < (2 : ℚ) ^ (b + 1)) : a = b := by
  have h1 : (2 : ℚ) ^ a < (2 : ℚ) ^ (b + 1) := lt_of_le_of_lt ha hb2
  have h2 : (2 : ℚ) ^ b < (2 : ℚ) ^ (a + 1) := lt_of_le_of_lt hb ha2
  rw [zpow_lt_zpow_iff_right₀ (by norm_num)] at h1 h2
  omega

/-- The binary logarithm brackets a positive rational. -/
theorem ilog2_spec (q : ℚ) (hq : 0 < q) :
    (2 : ℚ) ^ ilog2 q ≤ q ∧ q < (2 : ℚ) ^ (ilog2 q + 1) := by
  have hnum : 0 < q.num := Rat.num_pos.mpr hq
  have hp : 0 < q.num.natAbs := Int.natAbs_pos.mpr (ne_of_gt hnum)
  have hd : 0 < q.den := q.den_pos
  obtain ⟨p1, p2⟩ := lg_spec _ hp
  obtain ⟨d1, d2⟩ := lg_spec _ hd
  have hqeq : q = (q.num.natAbs : ℚ) / (q.den : ℚ) := by
    have h2 : ((q.num.natAbs : Nat) : ℚ) = (q.num : ℚ) := by
      rw [Nat.cast_natAbs, abs_of_pos hnum]
    rw [h2]
    exact (Rat.num_div_den q).symm
  have hP : (0 : ℚ) < (q.num.natAbs : ℚ) := by exact_mod_cast hp
  have hD : (0 : ℚ) < (q.den : ℚ) := by exact_mod_cast hd
  have P1 : (2 : ℚ) ^ lg q.num.natAbs ≤ (q.num.natAbs : ℚ) := by exact_mod_cast p1
  have P2 : (q.num.natAbs : ℚ) < (2 : ℚ) ^ (lg q.num.natAbs + 1) := by exact_mod_cast p2
  have D1 : (2 : ℚ) ^ lg q.den ≤ (q.den : ℚ) := by exact_mod_cast d1
  have D2 : (q.den : ℚ) < (2 : ℚ) ^ (lg q.den + 1) := by exact_mod_cast d2
  have hup : q < (2 : ℚ) ^ ((lg q.num.natAbs : Int) - (lg q.den : Int) + 1) := by
    rw [show ((lg q.num.natAbs : Int) - (lg q.den : Int) + 1)
        = ((lg q.num.natAbs + 1 : Nat) : Int) - ((lg q.den : Nat) : Int) by push_cast; ring,
      zpow_sub₀ (by norm_num), zpow_natCast, zpow_natCast]
    refine lt_of_eq_of_lt hqeq ?_
    rw [div_lt_div_iff hD (by positivity)]
    calc (q.num.natAbs : ℚ) * 2 ^ lg q.den ≤ (q.num.natAbs : ℚ) * q.den :=
          mul_le_mul_of_nonneg_left D1 hP.le
      _ < 2 ^ (lg q.num.natAbs + 1) * q.den := mul_lt_mul_of_pos_right P2 hD
  have hlo : (2 : ℚ) ^ ((lg q.num.natAbs : Int) - (lg q.den : Int) - 1) ≤ q := by
    rw [show ((lg q.num.natAbs : Int) - (lg q.den : Int) - 1)
        = ((lg q.num.natAbs : Nat) : Int) - ((lg q.den + 1 : Nat) : Int) by push_cast; ring,
      zpow_sub₀ (by norm_num), zpow_natCast, zpow_natCast]
    refine le_of_le_of_eq ?_ hqeq.symm
    rw [div_le_div_iff (by positivity) hD]
    calc (2 : ℚ) ^ lg q.num.natAbs * q.den ≤ (2 : ℚ) ^ lg q.num.natAbs * 2 ^ (lg q.den + 1) :=
          mul_le_mul_of_nonneg_left D2.le (by positivity)
      _ ≤ (q.num.natAbs : ℚ) * 2 ^ (lg q.den + 1) :=
          mul_le_mul_of_nonneg_right P1 (by positivity)
  unfold ilog2
  simp only [pow2_eq]
  split
  · rename_i h
    exact ⟨h, hup⟩
  · rename_i h
    refine ⟨hlo, ?_⟩
    rw [sub_add_cancel]
    exact lt_of_not_le h

/-- Rounding a natural gives the natural. -/
theorem roundHalfEven_natCast (n : Nat) : roundHalfEven (n : ℚ) = n := by
  unfold roundHalfEven
  simp

/-- Rounding moves a value by at most one half. -/
theorem roundHalfEven_bounds (x : ℚ) (hx : 0 ≤ x) :
    x - 1 / 2 ≤ (roundHalfEven x : ℚ) ∧ (roundHalfEven x : ℚ) ≤ x + 1 / 2 := by
  unfold roundHalfEven
  have h1 := Nat.floor_le hx
  have h2 := Nat.lt_floor_add_one x
  simp only
  split_ifs <;> push_cast <;> constructor <;> linarith

/-- Rounding does not cross a natural above. -/
theorem roundHalfEven_le (x : ℚ) (hx : 0 ≤ x) (N : Nat) (h : x ≤ N) : roundHalfEven x ≤ N := by
  have h1 := (roundHalfEven_bounds x hx).2
  have h2 : (roundHalfEven x : ℚ) < (N : ℚ) + 1 := by linarith
  have h3 : roundHalfEven x < N + 1 := by exact_mod_cast h2
  omega

/-- Rounding does not cross a natural below. -/
theorem le_roundHalfEven (x : ℚ) (hx : 0 ≤ x) (N : Nat) (h : (N : ℚ) ≤ x) :
    N ≤ roundHalfEven x := by
  have h1 := (roundHalfEven_bounds x hx).1
  have h2 : (N : ℚ) < (roundHalfEven x : ℚ) + 1 := by linarith
  have h3 : N < roundHalfEven x + 1 := by exact_mod_cast h2
  omega

/-- The spacing chosen for a value `m * 2 ^ k` with a 53-bit normal or a
subnormal significand `m` is `2 ^ k`. -/
theorem ilog2_rep (m : Nat) (k : Int) (hm : 0 < m)
    (h : (2 ^ 52 ≤ m ∧ m < 2 ^ 53) ∨ (m < 2 ^ 52 ∧ k = -1074)) (hk : -1074 ≤ k) :
    max (ilog2 ((m : ℚ) * pow2 k) - 52) (-1074) = k := by
  obtain ⟨p1, p2⟩ := lg_spec m hm
  have P1 : (2 : ℚ) ^ lg m ≤ (m : ℚ) := by exact_mod_cast p1
  have P2 : (m : ℚ) < (2 : ℚ) ^ (lg m + 1) := by exact_mod_cast p2
  have hkpos : (0 : ℚ) < (2 : ℚ) ^ k := by positivity
  have hq : 0 < (m : ℚ) * pow2 k := by
    rw [pow2_eq]
    have : (0 : ℚ) < (m : ℚ) := by exact_mod_cast hm
    positivity
  obtain ⟨s1, s2⟩ := ilog2_spec _ hq
  have e1 : (2 : ℚ) ^ ((lg m : Int) + k) ≤ (m : ℚ) * pow2 k := by
    rw [pow2_eq, zpow_add₀ (by norm_num), zpow_natCast]
    exact mul_le_mul_of_nonneg_right P1 hkpos.le
  have e2 : (m : ℚ) * pow2 k < (2 : ℚ) ^ ((lg m : Int) + k + 1) := by
    rw [pow2_eq, show ((lg m : Int) + k + 1) = ((lg m + 1 : Nat) : Int) + k by push_cast; ring,
      zpow_add₀ (by norm_num), zpow_natCast]
    exact mul_lt_mul_of_pos_right P2 hkpos
  have he := binade_unique _ _ _ s1 s2 e1 e2
  rw [he]
  rcases h with ⟨h1, h2⟩ | ⟨h1, h2⟩
  · have a1 : lg m < 53 := (Nat.pow_lt_pow_iff_right (by norm_num : 1 < 2)).mp (lt_of_le_of_lt p1 h2)
    have a2 : 52 < lg m + 1 := (Nat.pow_lt_pow_iff_right (by norm_num : 1 < 2)).mp (lt_of_le_of_lt h1 p2)
    rw [max_eq_left (by omega)]
    omega
  · have a1 : lg m < 52 := (Nat.pow_lt_pow_iff_right (by norm_num : 1 < 2)).mp (lt_of_le_of_lt p1 h1)
    rw [max_eq_right (by omega)]
    omega

/-- Rounding keeps a value `m * 2 ^ k` with a 53-bit normal or a subnormal
significand, unless it overflows. -/
theorem round_rep (neg : Bool) (m : Nat) (k : Int) (hm : 0 < m)
    (h : (2 ^ 52 ≤ m ∧ m < 2 ^ 53) ∨ (m < 2 ^ 52 ∧ k = -1074)) (hk : -1074 ≤ k) :
    round neg ((m : ℚ) * pow2 k) =
      if pow2 1024 ≤ (m : ℚ) * pow2 k then inf neg
      else num (if neg then -((m : ℚ) * pow2 k) else (m : ℚ) * pow2 k) := by
  have hmq : (0 : ℚ) < (m : ℚ) := by exact_mod_cast hm
  have hq : (m : ℚ) * pow2 k ≠ 0 := ne_of_gt (mul_pos hmq (pow2_pos k))
  have hdiv : (m : ℚ) * pow2 k / pow2 k = (m : ℚ) := by
    field_simp [ne_of_gt (pow2_pos k)]
  unfold round
  rw [if_neg hq]
  simp only [ilog2_rep m k hm h hk, hdiv, roundHalfEven_natCast]
  rw [if_neg (by omega)]


/-- A non-zero rounded magnitude is `m * 2 ^ k` with a 53-bit normal or a
subnormal significand. -/
theorem round_form (q : ℚ) (hq : 0 < q)
    (hM : roundHalfEven (q / pow2 (max (ilog2 q - 52) (-1074))) ≠ 0) :
    ∃ (m : Nat) (k : Int), 0 < m ∧ ((2 ^ 52 ≤ m ∧ m < 2 ^ 53) ∨ (m < 2 ^ 52 ∧ k = -1074)) ∧
      -1074 ≤ k ∧
      (roundHalfEven (q / pow2 (max (ilog2 q - 52) (-1074))) : ℚ) *
        pow2 (max (ilog2 q - 52) (-1074)) = (m : ℚ) * pow2 k := by
  obtain ⟨s1, s2⟩ := ilog2_spec q hq
  have hx : 0 ≤ q / pow2 (max (ilog2 q - 52) (-1074)) :=
    div_nonneg hq.le (pow2_pos _).le
  by_cases hc : -1074 ≤ ilog2 q - 52
  · have hK : max (ilog2 q - 52) (-1074) = ilog2 q - 52 := max_eq_left hc
    rw [hK] at hM hx ⊢
    have hpos : (0 : ℚ) < (2 : ℚ) ^ (ilog2 q - 52) := by positivity
    have x1 : ((2 ^ 52 : Nat) : ℚ) ≤ q / pow2 (ilog2 q - 52) := by
      rw [pow2_eq, le_div_iff₀ hpos]
      have : ((2 ^ 52 : Nat) : ℚ) * (2 : ℚ) ^ (ilog2 q - 52) = (2 : ℚ) ^ ilog2 q := by
        have h52 : ((2 ^ 52 : Nat) : ℚ) = (2 : ℚ) ^ (52 : Int) := by norm_num
        rw [h52, ← zpow_add₀ (by norm_num)]
        congr 1
        omega
      rw [this]
      exact s1
    have x2 : q / pow2 (ilog2 q - 52) ≤ ((2 ^ 53 : Nat) : ℚ) := by
      rw [pow2_eq, div_le_iff₀ hpos]
      have : ((2 ^ 53 : Nat) : ℚ) * (2 : ℚ) ^ (ilog2 q - 52) = (2 : ℚ) ^ (ilog2 q + 1) := by
        have h53 : ((2 ^ 53 : Nat) : ℚ) = (2 : ℚ) ^ (53 : Int) := by norm_num
        rw [h53, ← zpow_add₀ (by norm_num)]
        congr 1
        omega
      rw [this]
      exact s2.le
    have m1 := le_roundHalfEven _ hx _ x1
    have m2 := roundHalfEven_le _ hx _ x2
    by_cases hlt : roundHalfEven (q / pow2 (ilog2 q - 52)) < 2 ^ 53
    · exact ⟨_, _, by omega, Or.inl ⟨m1, hlt⟩, hc, rfl⟩
    · have heq : roundHalfEven (q / pow2 (ilog2 q - 52)) = 2 ^ 53 := by omega
      refine ⟨2 ^ 52, ilog2 q - 52 + 1, by norm_num, Or.inl ⟨le_rfl, by norm_num⟩, by omega, ?_⟩
      rw [heq, pow2_eq, pow2_eq, zpow_add_one₀ (by norm_num)]
      push_cast
      ring
  · have hK : max (ilog2 q - 52) (-1074) = -1074 := max_eq_right (by omega)
    rw [hK] at hM hx ⊢
    have hpos : (0 : ℚ) < (2 : ℚ) ^ (-1074 : Int) := by positivity
    have x2 : q / pow2 (-1074) ≤ ((2 ^ 52 : Nat) : ℚ) := by
      rw [pow2_eq, div_le_iff₀ hpos]
      have h1 : (2 : ℚ) ^ (ilog2 q + 1) ≤ (2 : ℚ) ^ ((52 : Int) + (-1074)) :=
        zpow_le_of_le (by norm_num) (by omega)
      have : ((2 ^ 52 : Nat) : ℚ) * (2 : ℚ) ^ (-1074 : Int) = (2 : ℚ) ^ ((52 : Int) + (-1074)) := by
        have h52 : ((2 ^ 52 : Nat) : ℚ) = (2 : ℚ) ^ (52 : Int) := by norm_num
        rw [h52, ← zpow_add₀ (by norm_num)]
      rw [this]
      exact le_trans s2.le h1
    have m2 := roundHalfEven_le _ hx _ x2
    by_cases hlt : roundHalfEven (q / pow2 (-1074)) < 2 ^ 52
    · exact ⟨_, _, by omega, Or.inr ⟨hlt, rfl⟩, le_rfl, rfl⟩
    · exact ⟨_, _, by omega, Or.inl ⟨by omega, by omega⟩, le_rfl, rfl⟩

/-- Rounding is idempotent: every result of `round` is a double. -/
theorem round_canon (neg : Bool) (q : ℚ) (hq : 0 ≤ q) : (round neg q).canon = round neg q := by
  by_cases h0 : q = 0
  · subst h0
    cases neg <;> simp [round, zero, canon, ofRat]
  · have hpos : 0 < q := lt_of_le_of_ne hq (Ne.symm h0)
    by_cases hM : roundHalfEven (q / pow2 (max (ilog2 q - 52) (-1074))) = 0
    · have : round neg q = zero neg := by
        unfold round
        rw [if_neg h0]
        simp only [hM, if_true]
      rw [this]
      cases neg <;> simp [round, zero, canon, ofRat]
    · obtain ⟨m, k, hm, hrep, hk, hv⟩ := round_form q hpos hM
      have hr : round neg q =
          if pow2 1024 ≤ (m : ℚ) * pow2 k then inf neg
          else num (if neg then -((m : ℚ) * pow2 k) else (m : ℚ) * pow2 k) := by
        unfold round
        rw [if_neg h0]
        simp only [hv, if_neg hM]
      rw [hr]
      have hvpos : 0 < (m : ℚ) * pow2 k :=
        mul_pos (by exact_mod_cast hm) (pow2_pos k)
      split
      · cases neg <;> rfl
      · rename_i hov
        cases neg
        · simp only [canon, ofRat, Bool.false_eq_true, if_false, abs_of_pos hvpos,
            decide_eq_false (not_lt.mpr hvpos.le)]
          rw [round_rep false m k hm hrep hk, if_neg hov]
          simp
        · simp only [canon, ofRat, if_true, abs_neg, abs_of_pos hvpos,
            decide_eq_true (neg_lt_zero.mpr hvpos)]
          rw [round_rep true m k hm hrep hk, if_neg hov]
          simp

/-- The double nearest to a rational is a double. -/
theorem ofRat_canon (q : ℚ) : (ofRat q).canon = ofRat q := round_canon _ _ (abs_nonneg q)

/-- A product is a double. -/
theorem mul_canon (a b : Float64) : (a.mul b).canon = a.mul b := by
  unfold mul
  split
  · rfl
  · rfl
  · split
    · exact round_canon _ _ (by
        rename_i x y hx hy
        have hx0 : 0 ≤ x := by
          cases a <;> simp [mag] at hx <;> subst hx <;> simp
        have hy0 : 0 ≤ y := by
          cases b <;> simp [mag] at hy <;> subst hy <;> simp
        exact mul_nonneg hx0 hy0)
    · split <;> [rfl; (cases xor a.isNeg b.isNeg <;> rfl)]
    · split <;> [rfl; (cases xor a.isNeg b.isNeg <;> rfl)]
    · cases xor a.isNeg b.isNeg <;> rfl

/-- Multiplying by the literal 1 gives the double the value stands for: the
value itself when it is a double, NaN, infinities and signed zeros included. -/
theorem mul_num_one (x : Float64) : x.mul (num 1) = x.canon := by
  have h1 : decide ((1 : ℚ) < 0) = false := by simp
  cases x with
  | num q => simp only [mul, mag, isNeg, canon, ofRat, h1, Bool.xor_false, abs_one, mul_one]
  | _ => simp [mul, mag, isNeg, inf, canon, round, zero]


/-- The conversion of an integer of magnitude at most `2 ^ 53` is exact. -/
theorem ofInt64_exact (n : Int) (h : n.natAbs ≤ 2 ^ 53) : ofInt64 n = num n := by
  by_cases h0 : n = 0
  · subst h0
    simp [ofInt64, ofRat, round, zero]
  · have hp : 0 < n.natAbs := Int.natAbs_pos.mpr h0
    obtain ⟨p1, p2⟩ := lg_spec _ hp
    have habs : |(n : ℚ)| = (n.natAbs : ℚ) := by
      rw [Nat.cast_natAbs]; push_cast; rfl
    have hnov : ∀ (m : Nat) (k : Int), (m : ℚ) * pow2 k = (n.natAbs : ℚ) →
        ¬ pow2 1024 ≤ (m : ℚ) * pow2 k := by
      intro m k hmk
      rw [hmk, not_le, pow2_eq]
      have h1 : (n.natAbs : ℚ) ≤ ((2 ^ 53 : Nat) : ℚ) := by exact_mod_cast h
      have h2 : ((2 ^ 53 : Nat) : ℚ) < (2 : ℚ) ^ (1024 : Int) := by norm_num
      exact lt_of_le_of_lt h1 h2
    have hfin : ∀ (m : Nat) (k : Int), 0 < m →
        ((2 ^ 52 ≤ m ∧ m < 2 ^ 53) ∨ (m < 2 ^ 52 ∧ k = -1074)) → -1074 ≤ k →
        (m : ℚ) * pow2 k = (n.natAbs : ℚ) → ofInt64 n = num n := by
      intro m k hm hrep hk hmk
      unfold ofInt64 ofRat
      rw [habs, ← hmk, round_rep _ m k hm hrep hk, if_neg (hnov m k hmk), hmk]
      by_cases hneg : (n : ℚ) < 0
      · have : (n.natAbs : ℚ) = -(n : ℚ) := by rw [← habs, abs_of_neg hneg]
        simp [hneg, this]
      · have : (n.natAbs : ℚ) = (n : ℚ) := by rw [← habs, abs_of_nonneg (not_lt.mp hneg)]
        simp [hneg, this]
    by_cases hlt : n.natAbs < 2 ^ 53
    · have ha : lg n.natAbs < 53 :=
        (Nat.pow_lt_pow_iff_right (by norm_num : 1 < 2)).mp (lt_of_le_of_lt p1 hlt)
      refine hfin (n.natAbs * 2 ^ (52 - lg n.natAbs)) ((lg n.natAbs : Int) - 52) (by positivity)
        (Or.inl ⟨?_, ?_⟩) (by omega) ?_
      · calc 2 ^ 52 = 2 ^ lg n.natAbs * 2 ^ (52 - lg n.natAbs) := by
              rw [← pow_add]; congr 1; omega
          _ ≤ n.natAbs * 2 ^ (52 - lg n.natAbs) := Nat.mul_le_mul_right _ p1
      · calc n.natAbs * 2 ^ (52 - lg n.natAbs)
              < 2 ^ (lg n.natAbs + 1) * 2 ^ (52 - lg n.natAbs) :=
                Nat.mul_lt_mul_of_pos_right p2 (by positivity)
          _ = 2 ^ 53 := by rw [← pow_add]; congr 1; omega
      · rw [pow2_eq]
        push_cast
        have hz : ((lg n.natAbs : Int) - 52) = -((52 - lg n.natAbs : Nat) : Int) := by omega
        rw [hz, zpow_neg, zpow_natCast]
        field_simp
    · have heq : n.natAbs = 2 ^ 53 := by omega
      refine hfin (2 ^ 52) 1 (by norm_num) (Or.inl ⟨le_rfl, by norm_num⟩) (by norm_num) ?_
      rw [heq, pow2_eq]
      norm_num

end Float64

/-- The exact value of a mantissa and exponent is not negative. -/
theorem scale_nonneg (m base : Nat) (e : Int) : 0 ≤ scale m base e := by
  unfold scale
  split <;> positivity

/-- An infinity is a double. -/
theorem Float64.inf_canon (b : Bool) : (Float64.inf b).canon = Float64.inf b := by
  cases b <;> rfl

/-- The range check of `readFloat` passes a double on. -/
theorem ParseFloat_finish (r x : Float64) :
    (match r with
      | Float64.posInf => none
      | Float64.negInf => none
      | y => some y) = some x → r.canon = r → x.canon = x := by
  intro h hr
  cases r <;> simp at h <;> subst h <;> exact hr

/-- What `readFloat` returns is a double. -/
theorem readFloat_canon (cs : List Char) (neg hex : Bool) (digits : List Char) (x : Float64)
    (h : readFloat cs neg hex digits = some x) : x.canon = x := by
  unfold readFloat at h
  split at h
  split at h
  · cases h
  · split at h
    · split at h
      · cases h
      · rename_i mant frac _ _ _ _ _ e _ _
        have hq : 0 ≤ (if hex = true then scale mant 2 (e - 4 * frac)
            else scale mant 10 (e - frac)) := by
          split <;> exact scale_nonneg _ _ _
        exact ParseFloat_finish _ x h (Float64.round_canon neg _ hq)
    · cases h

/-- What `strconv.ParseFloat` returns is a double. -/
theorem ParseFloat_canon (s : String) (x : Float64) (h : ParseFloat s = some x) :
    x.canon = x := by
  unfold ParseFloat at h
  by_cases h1 : s.toList.map lowerAscii = "nan".toList
  · rw [if_pos h1] at h
    cases h
    rfl
  · rw [if_neg h1] at h
    by_cases h2 : (readSign s.toList).2.map lowerAscii = "inf".toList ∨
        (readSign s.toList).2.map lowerAscii = "infinity".toList
    · rw [if_pos h2] at h
      cases h
      exact Float64.inf_canon _
    · rw [if_neg h2] at h
      exact readFloat_canon _ _ _ _ x h

/-- What `dbToFloat64` returns is a double, a float64 column holding one. -/
theorem dbToFloat64_canon (t : DBValue) (ht : ∀ v, t = DBValue.float64 v → v.canon = v) :
    (dbToFloat64 t).1.canon = (dbToFloat64 t).1 := by
  cases t with
  | null => rfl
  | int64 v => exact Float64.ofRat_canon _
  | float64 v => exact ht v rfl
  | time u => exact Float64.ofRat_canon _
  | bytes v =>
    cases h : ParseFloat v with
    | none => simp only [dbToFloat64, h]; rfl
    | some x => simp only [dbToFloat64, h]; exact ParseFloat_canon v x h
  | string v =>
    cases h : ParseFloat v with
    | none => simp only [dbToFloat64, h]; rfl
    | some x => simp only [dbToFloat64, h]; exact ParseFloat_canon v x h
  | bool b => rfl

/-! ## Go maps: lookup after insertion -/

theorem GoMap.lookup_insert_self {β : Type} (m : GoMap β) (k : String) (v : β) :
    (m.insert k v).lookup k = some v := by
  induction m with
  | nil => simp [GoMap.insert, GoMap.lookup]
  | cons hd tl ih =>
    obtain ⟨k1, v1⟩ := hd
    by_cases h : k1 = k
    · simp [GoMap.insert, GoMap.lookup, h]
    · simp [GoMap.insert, GoMap.lookup, h, ih]

theorem GoMap.lookup_insert_other {β : Type} (m : GoMap β) (k k2 : String) (v : β)
    (hne : k ≠ k2) : (m.insert k v).lookup k2 = m.lookup k2 := by
  induction m with
  | nil => simp [GoMap.insert, GoMap.lookup, hne]
  | cons hd tl ih =>
    obtain ⟨k1, v1⟩ := hd
    by_cases h : k1 = k
    · subst h
      simp [GoMap.insert, GoMap.lookup, hne]
    · by_cases h2 : k1 = k2
      · subst h2
        simp [GoMap.insert, GoMap.lookup, h]
      · simp [GoMap.insert, GoMap.lookup, h, h2, ih]

/-! ## Mapping construction: what `convert` stores for a column -/

/-- A step of `convert` for another column leaves the entry of `k` alone. -/
theorem makeDescMap.convertStep_lookup_other (g t : String) (labels : List String)
    (acc : GoMap MetricMap) (entry : String × ColumnMapping) (k : String) (hne : entry.1 ≠ k) :
    (makeDescMap.convertStep g t labels acc entry).lookup k = acc.lookup k := by
  unfold makeDescMap.convertStep
  cases entry.2.usage <;> simp [GoMap.lookup_insert_other _ _ _ _ hne]

/-- Columns other than `k` do not change the entry of `k`. -/
theorem makeDescMap.foldl_lookup_absent (g t : String) (labels : List String)
    (l : GoMap ColumnMapping) (acc : GoMap MetricMap) (k : String)
    (hk : k ∉ l.map Prod.fst) :
    (l.foldl (makeDescMap.convertStep g t labels) acc).lookup k = acc.lookup k := by
  induction l generalizing acc with
  | nil => rfl
  | cons hd tl ih =>
    simp only [List.map_cons, List.mem_cons, not_or] at hk
    rw [List.foldl_cons, ih _ hk.2]
    exact makeDescMap.convertStep_lookup_other g t labels acc hd k (fun h => hk.1 h.symm)

/-- With distinct column names (a Go map), the entry of each column of the
table in `columnMappings` is the one its usage selects. -/
theorem makeDescMap.convert_lookup (g t : String) (mappings : GoMap ColumnMapping)
    (converter : RowConverter) (hnd : (mappings.map Prod.fst).Nodup)
    (c : String) (cm : ColumnMapping) (hc : (c, cm) ∈ mappings) :
    (makeDescMap.convert g t mappings converter).columnMappings.lookup c =
      makeDescMap.entryFor
        (makeDescMap.columnDesc g t (makeDescMap.labelNames mappings) c cm) cm.usage := by
  obtain ⟨l1, l2, rfl⟩ := List.append_of_mem hc
  simp only [List.map_append, List.map_cons, List.nodup_append, List.nodup_cons] at hnd
  obtain ⟨_, ⟨hc2, _⟩, hdis⟩ := hnd
  have hc1 : c ∉ l1.map Prod.fst := fun h => hdis h (List.mem_cons_self _ _)
  simp only [makeDescMap.convert, List.foldl_append, List.foldl_cons]
  rw [makeDescMap.foldl_lookup_absent _ _ _ _ _ _ hc2]
  have h1 := makeDescMap.foldl_lookup_absent g t (makeDescMap.labelNames (l1 ++ (c, cm) :: l2))
    l1 [] c hc1
  generalize List.foldl _ [] l1 = acc at h1 ⊢
  unfold makeDescMap.convertStep makeDescMap.entryFor
  cases hu : cm.usage <;> simp [GoMap.lookup_insert_self, h1, GoMap.lookup]

/-- A name that is no column of the table has no entry in `columnMappings`. -/
theorem makeDescMap.convert_lookup_absent (g t : String) (mappings : GoMap ColumnMapping)
    (converter : RowConverter) (c : String) (hc : c ∉ mappings.map Prod.fst) :
    (makeDescMap.convert g t mappings converter).columnMappings.lookup c = none := by
  simp only [makeDescMap.convert]
  rw [makeDescMap.foldl_lookup_absent _ _ _ _ _ _ hc]
  rfl

/-- Every entry of `columnMappings` is the entry of a column of the table. -/
theorem makeDescMap.convert_lookup_some (g t : String) (mappings : GoMap ColumnMapping)
    (converter : RowConverter) (hnd : (mappings.map Prod.fst).Nodup)
    (c : String) (metricMapping : MetricMap)
    (h : (makeDescMap.convert g t mappings converter).columnMappings.lookup c
      = some metricMapping) :
    ∃ cm, (c, cm) ∈ mappings ∧
      makeDescMap.entryFor (makeDescMap.columnDesc g t (makeDescMap.labelNames mappings) c cm)
        cm.usage = some metricMapping := by
  by_cases hc : c ∈ mappings.map Prod.fst
  · obtain ⟨⟨c1, cm⟩, hmem, rfl⟩ := List.mem_map.mp hc
    exact ⟨cm, hmem, by rw [← makeDescMap.convert_lookup g t mappings converter hnd _ cm hmem, h]⟩
  · rw [makeDescMap.convert_lookup_absent g t mappings converter c hc] at h
    exact absurd h (by simp)

/-- What an entry stored by the `switch` of `convert` holds, by usage. -/
theorem makeDescMap.entryFor_some (desc : Desc) (u : ColumnUsage) (metricMapping : MetricMap)
    (h : makeDescMap.entryFor desc u = some metricMapping) :
    metricMapping.desc = desc ∧
    ((u = .GAUGE_MS ∧ metricMapping.vtype = .GaugeValue ∧
        metricMapping.multiplier = Float64.ofRat (1 / 1000000)) ∨
     (u = .COUNTER ∧ metricMapping.vtype = .CounterValue ∧
        metricMapping.multiplier = Float64.num 1) ∨
     (u = .GAUGE ∧ metricMapping.vtype = .GaugeValue ∧
        metricMapping.multiplier = Float64.num 1)) := by
  cases u <;> simp [makeDescMap.entryFor] at h <;> subst h <;> simp

/-! ## Sample construction -/

/-- A metric `MustNewConstMetric` returns carries its four arguments; the
descriptor then has no error and as many label names as there are values. -/
theorem MustNewConstMetric_ok (desc : Desc) (vt : ValueType) (value : Float64)
    (labelValues : List String) (metric : Metric)
    (h : MustNewConstMetric desc vt value labelValues = .ok metric) :
    metric = { desc := desc, valType := vt, value := value, labelValues := labelValues } ∧
    labelValues.length = desc.variableLabels.length ∧ desc.err = false := by
  unfold MustNewConstMetric at h
  split at h
  · cases h
  · split at h
    · rename_i herr hlen
      cases h
      exact ⟨rfl, hlen, by simpa using herr⟩
    · cases h

/-- A descriptor without error and with one label name per value gives a
sample. -/
theorem MustNewConstMetric_valid (desc : Desc) (vt : ValueType) (value : Float64)
    (labelValues : List String) (herr : desc.err = false)
    (hlen : labelValues.length = desc.variableLabels.length) :
    MustNewConstMetric desc vt value labelValues =
      .ok { desc := desc, valType := vt, value := value, labelValues := labelValues } := by
  simp [MustNewConstMetric, herr, hlen]

/-- A panic of `MustNewConstMetric` is no out-of-range access: the descriptor
has an error or the number of label values is not that of its label names. -/
theorem MustNewConstMetric_error (desc : Desc) (vt : ValueType) (value : Float64)
    (labelValues : List String) (p : Panic)
    (h : MustNewConstMetric desc vt value labelValues = .error p) :
    p ≠ .indexOutOfRange ∧
    (desc.err = true ∨ labelValues.length ≠ desc.variableLabels.length) := by
  unfold MustNewConstMetric at h
  split at h
  · rename_i herr
    cases h
    exact ⟨by simp, Or.inl herr⟩
  · split at h
    · cases h
    · rename_i hlen
      cases h
      exact ⟨by simp, Or.inr hlen⟩

/-! ## Wide-row strategy: label values -/

/-- A null label column gives the empty string. -/
theorem metricRowConverter.labelValues_null (result : rowResult) (name : String)
    (rest labelValues : List String)
    (h : result.ColumnData[result.ColumnIdx.index name]? = some DBValue.null) :
    metricRowConverter.labelValues result (name :: rest) labelValues =
      metricRowConverter.labelValues result rest (labelValues ++ [""]) := by
  simp [metricRowConverter.labelValues, h]

/-- The label loop appends one value per label name when every label column
holds a null, a string or an int64. -/
theorem metricRowConverter.labelValues_ok (result : rowResult) (labels : List String) :
    ∀ acc : List String,
      (∀ name ∈ labels, ∃ v, result.ColumnData[result.ColumnIdx.index name]? = some v ∧
        (v = DBValue.null ∨ (∃ s, v = DBValue.string s) ∨ ∃ n, v = DBValue.int64 n)) →
      ∃ labelValues, metricRowConverter.labelValues result labels acc = .ok labelValues ∧
        labelValues.length = acc.length + labels.length := by
  induction labels with
  | nil => intro acc _; exact ⟨acc, rfl, rfl⟩
  | cons name rest ih =>
    intro acc h
    obtain ⟨v, hv, hty⟩ := h name (List.mem_cons_self _ _)
    have hrest := fun n hn => h n (List.mem_cons_of_mem _ hn)
    rcases hty with rfl | ⟨s, rfl⟩ | ⟨n, rfl⟩
    · obtain ⟨lv, h1, h2⟩ := ih (acc ++ [""]) hrest
      exact ⟨lv, by simp [metricRowConverter.labelValues, hv, h1], by simp [h2]; omega⟩
    · obtain ⟨lv, h1, h2⟩ := ih (acc ++ [s]) hrest
      exact ⟨lv, by simp [metricRowConverter.labelValues, hv, h1], by simp [h2]; omega⟩
    · obtain ⟨lv, h1, h2⟩ := ih (acc ++ [FormatInt n]) hrest
      exact ⟨lv, by simp [metricRowConverter.labelValues, hv, h1], by simp [h2]; omega⟩

/-- The column loop, given as many label values as every descriptor has label
names, descriptors without error and a value slot for every column: it returns without a fatal error,
having sent one sample per mapped column whose value `dbToFloat64` accepts and
recorded one non-fatal error per mapped column whose value it refuses. -/
theorem metricRowConverter.columns_count (m : MetricMapNamespace) (result : rowResult)
    (labelValues : List String)
    (hlab : ∀ c metricMapping, m.columnMappings.lookup c = some metricMapping →
      labelValues.length = metricMapping.desc.variableLabels.length)
    (herr : ∀ c metricMapping, m.columnMappings.lookup c = some metricMapping →
      metricMapping.desc.err = false)
    (cols : List String) :
    ∀ (idx : Nat) (sent : List Metric) (errs : List Error),
      idx + cols.length ≤ result.ColumnData.length →
      ∃ newSent newErrs,
        metricRowConverter.columns m result labelValues idx cols sent errs =
          { sent := sent ++ newSent, outcome := .returned (errs ++ newErrs) none } ∧
        newSent.length = ((cols.zip (result.ColumnData.drop idx)).filter
          (fun p => (m.columnMappings.lookup p.1).isSome && (dbToFloat64 p.2).2)).length ∧
        newErrs.length = ((cols.zip (result.ColumnData.drop idx)).filter
          (fun p => (m.columnMappings.lookup p.1).isSome && !(dbToFloat64 p.2).2)).length := by
  induction cols with
  | nil =>
    intro idx sent errs _
    exact ⟨[], [], by simp [metricRowConverter.columns], by simp, by simp⟩
  | cons c rest ih =>
    intro idx sent errs hlen
    simp only [List.length_cons] at hlen
    have hidx : idx < result.ColumnData.length := by omega
    have hdrop : result.ColumnData.drop idx =
        result.ColumnData[idx] :: result.ColumnData.drop (idx + 1) :=
      List.drop_eq_getElem_cons hidx
    have hget : result.ColumnData[idx]? = some result.ColumnData[idx] :=
      List.getElem?_eq_getElem hidx
    generalize result.ColumnData[idx] = data at hdrop hget
    rw [hdrop, List.zip_cons_cons]
    unfold metricRowConverter.columns
    cases hl : m.columnMappings.lookup c with
    | none =>
      obtain ⟨s1, e1, h1, h2, h3⟩ := ih (idx + 1) sent errs (by omega)
      exact ⟨s1, e1, by simp only [h1], by simp [List.filter_cons, hl, h2],
        by simp [List.filter_cons, hl, h3]⟩
    | some mm =>
      rcases hf : dbToFloat64 data with ⟨value, ok⟩
      cases ok with
      | false =>
        obtain ⟨s1, e1, h1, h2, h3⟩ := ih (idx + 1) sent
          (errs ++ [Error.parseColumn m.namespace_ c data]) (by omega)
        refine ⟨s1, Error.parseColumn m.namespace_ c data :: e1, ?_, ?_, ?_⟩
        · simp only [hget, hf, h1, List.append_assoc, List.singleton_append]
        · simp [List.filter_cons, hl, hf, h2]
        · simp [List.filter_cons, hl, hf, h3]
      | true =>
        have hmk := MustNewConstMetric_valid mm.desc mm.vtype (value.mul mm.multiplier)
          labelValues (herr c mm hl) (hlab c mm hl)
        obtain ⟨s1, e1, h1, h2, h3⟩ := ih (idx + 1)
          (sent ++ [{ desc := mm.desc, valType := mm.vtype, value := value.mul mm.multiplier,
                      labelValues := labelValues }]) errs (by omega)
        refine ⟨{ desc := mm.desc, valType := mm.vtype, value := value.mul mm.multiplier,
                  labelValues := labelValues } :: s1, e1, ?_, ?_, ?_⟩
        · simp only [hget, hf, hmk, h1, List.append_assoc, List.singleton_append]
        · simp [List.filter_cons, hl, hf, h2]
        · simp [List.filter_cons, hl, hf, h3]

/-- The wide-row strategy over a mapping built by `convert` whose descriptors
have no error, on a row buffer with a value slot per column and whose label
columns hold nulls, strings or int64s: it returns without a fatal error, one sample per mapped column whose
value converts, one non-fatal error per mapped column whose value does not;
columns without an entry (labels, unmapped columns) contribute neither. -/
theorem metricRowConverter_count (g t : String) (mappings : GoMap ColumnMapping)
    (hnd : (mappings.map Prod.fst).Nodup)
    (hvalid : ∀ c cm, (c, cm) ∈ mappings →
      (makeDescMap.columnDesc g t (makeDescMap.labelNames mappings) c cm).err = false)
    (result : rowResult)
    (hlen : result.ColumnNames.length ≤ result.ColumnData.length)
    (hlabels : ∀ name ∈ makeDescMap.labelNames mappings,
      ∃ v, result.ColumnData[result.ColumnIdx.index name]? = some v ∧
        (v = DBValue.null ∨ (∃ s, v = DBValue.string s) ∨ ∃ n, v = DBValue.int64 n)) :
    ∃ sent errs,
      metricRowConverter (makeDescMap.convert g t mappings .metricRowConverter) result =
        { sent := sent, outcome := .returned errs none } ∧
      sent.length = ((result.ColumnNames.zip result.ColumnData).filter
        (fun p => ((makeDescMap.convert g t mappings .metricRowConverter).columnMappings.lookup
          p.1).isSome && (dbToFloat64 p.2).2)).length ∧
      errs.length = ((result.ColumnNames.zip result.ColumnData).filter
        (fun p => ((makeDescMap.convert g t mappings .metricRowConverter).columnMappings.lookup
          p.1).isSome && !(dbToFloat64 p.2).2)).length := by
  obtain ⟨lv, hlv, hlvlen⟩ := metricRowConverter.labelValues_ok result
    (makeDescMap.labelNames mappings) [] hlabels
  have hlab : ∀ c mm,
      (makeDescMap.convert g t mappings .metricRowConverter).columnMappings.lookup c = some mm →
      lv.length = mm.desc.variableLabels.length := by
    intro c mm hl
    obtain ⟨cm, _, hent⟩ := makeDescMap.convert_lookup_some g t mappings _ hnd c mm hl
    obtain ⟨hdesc, _⟩ := makeDescMap.entryFor_some _ _ _ hent
    rw [hdesc, hlvlen]
    unfold makeDescMap.columnDesc
    split <;> simp [NewDesc]
  have herr : ∀ c mm,
      (makeDescMap.convert g t mappings .metricRowConverter).columnMappings.lookup c = some mm →
      mm.desc.err = false := by
    intro c mm hl
    obtain ⟨cm, hmem, hent⟩ := makeDescMap.convert_lookup_some g t mappings _ hnd c mm hl
    obtain ⟨hdesc, _⟩ := makeDescMap.entryFor_some _ _ _ hent
    rw [hdesc]
    exact hvalid c cm hmem
  obtain ⟨s1, e1, h1, h2, h3⟩ := metricRowConverter.columns_count _ result lv hlab herr
    result.ColumnNames 0 [] [] (by simpa using hlen)
  refine ⟨s1, e1, ?_, by simpa using h2, by simpa using h3⟩
  unfold metricRowConverter
  have hl2 : (makeDescMap.convert g t mappings .metricRowConverter).labels =
      makeDescMap.labelNames mappings := rfl
  rw [hl2, hlv]
  simpa using h1

/-- Every sample the second loop of `metricRowConverter` sends was either sent
before or comes from a mapped column of the row whose value `dbToFloat64`
accepts. -/
theorem metricRowConverter.columns_sent (m : MetricMapNamespace) (result : rowResult)
    (labelValues : List String) (cols : List String) :
    ∀ (idx : Nat) (sent : List Metric) (errs : List Error) (metric : Metric),
      metric ∈ (metricRowConverter.columns m result labelValues idx cols sent errs).sent →
      metric ∈ sent ∨
      ∃ k c metricMapping data, cols[k]? = some c ∧
        m.columnMappings.lookup c = some metricMapping ∧
        result.ColumnData[idx + k]? = some data ∧ (dbToFloat64 data).2 = true ∧
        labelValues.length = metricMapping.desc.variableLabels.length ∧
        metric = { desc := metricMapping.desc, valType := metricMapping.vtype,
                   value := (dbToFloat64 data).1.mul metricMapping.multiplier,
                   labelValues := labelValues } := by
  induction cols with
  | nil =>
    intro idx sent errs metric h
    exact Or.inl (by simpa [metricRowConverter.columns] using h)
  | cons c rest ih =>
    intro idx sent errs metric h
    have shift : ∀ sent1 errs1,
        metric ∈ (metricRowConverter.columns m result labelValues (idx + 1) rest sent1 errs1).sent →
        metric ∈ sent1 ∨
        ∃ k c1 metricMapping data, (c :: rest)[k]? = some c1 ∧
          m.columnMappings.lookup c1 = some metricMapping ∧
          result.ColumnData[idx + k]? = some data ∧ (dbToFloat64 data).2 = true ∧
          labelValues.length = metricMapping.desc.variableLabels.length ∧
          metric = { desc := metricMapping.desc, valType := metricMapping.vtype,
                     value := (dbToFloat64 data).1.mul metricMapping.multiplier,
                     labelValues := labelValues } := by
      intro sent1 errs1 h1
      rcases ih (idx + 1) sent1 errs1 metric h1 with hin | ⟨k, c1, mm, data, hk, hl, hd, hok, hlen, hm⟩
      · exact Or.inl hin
      · refine Or.inr ⟨k + 1, c1, mm, data, by simpa using hk, hl, ?_, hok, hlen, hm⟩
        rw [← hd]
        congr 1
        omega
    unfold metricRowConverter.columns at h
    cases hl : m.columnMappings.lookup c with
    | none =>
      simp only [hl] at h
      exact shift _ _ h
    | some mm =>
      cases hd : result.ColumnData[idx]? with
      | none =>
        simp only [hl, hd] at h
        exact Or.inl h
      | some data =>
        rcases hf : dbToFloat64 data with ⟨value, ok⟩
        cases ok with
        | false =>
          simp only [hl, hd, hf] at h
          exact shift _ _ h
        | true =>
          cases hmk : MustNewConstMetric mm.desc mm.vtype (value.mul mm.multiplier) labelValues with
          | error p =>
            simp only [hl, hd, hf, hmk] at h
            exact Or.inl h
          | ok metric1 =>
            simp only [hl, hd, hf, hmk] at h
            rcases shift _ _ h with hin | hex
            · rcases List.mem_append.mp hin with hin1 | hin2
              · exact Or.inl hin1
              · obtain ⟨hm1, hlen, _⟩ := MustNewConstMetric_ok _ _ _ _ _ hmk
                refine Or.inr ⟨0, c, mm, data, by simp, hl, by simpa using hd, by simp [hf], hlen, ?_⟩
                rw [List.mem_singleton.mp hin2, hm1, hf]
            · exact Or.inr hex

/-- C1 (code defect): the spec's wide row `name: "db1", waiting: 3,
idle: "notanumber"` with `name` LABEL, `waiting` COUNTER, `idle` GAUGE gives one
sample (`waiting` = 3, label `db1`) and one non-fatal error; but when the
driver hands the label column over as a byte sequence, all label columns being
present, `metricRowConverter` appends no label value, `MustNewConstMetric`
panics on the label count, and no sample is sent and nothing is returned for
the two metric columns. -/
theorem C1_row_converter_panics_on_bytes_label :
    metricRowConverter
        (makeDescMap.convert "pgbouncer" "pools"
          [("name", ⟨.LABEL, "", "n"⟩), ("waiting", ⟨.COUNTER, "", "w"⟩), ("idle", ⟨.GAUGE, "", "i"⟩)]
          .metricRowConverter)
        (rowBuffer ["name", "waiting", "idle"] [.string "db1", .int64 3, .string "notanumber"])
      = { sent := [{ desc := ⟨"pgbouncer_pools_waiting", "w", ["name"]⟩, valType := .CounterValue,
                     value := .num 3, labelValues := ["db1"] }]
          outcome := .returned [.parseColumn "pools" "idle" (.string "notanumber")] none } ∧
    metricRowConverter
        (makeDescMap.convert "pgbouncer" "pools"
          [("name", ⟨.LABEL, "", "n"⟩), ("waiting", ⟨.COUNTER, "", "w"⟩), ("idle", ⟨.GAUGE, "", "i"⟩)]
          .metricRowConverter)
        (rowBuffer ["name", "waiting", "idle"] [.bytes "db1", .int64 3, .string "notanumber"])
      = { sent := [], outcome := .panicked .labelCardinality } := by
  constructor <;> decide!

/-- For a label column holding a float64, a timestamp, a byte sequence or a
boolean, the first loop of `metricRowConverter` appends no label value: with
the one label name `name` the list of label values is empty, and the
conversion of the row panics in `MustNewConstMetric` without sending a
sample. -/
theorem metricRowConverter.unhandled_label_panics :
    (makeDescMap.convert "pgbouncer" "pools"
        [("name", ⟨.LABEL, "", "n"⟩), ("waiting", ⟨.COUNTER, "", "w"⟩)] .metricRowConverter).labels
      = ["name"] ∧
    (∀ v ∈ [DBValue.float64 (.num 1.5), DBValue.time 1700000000, DBValue.bytes "db1",
            DBValue.bool true],
      metricRowConverter.labelValues (rowBuffer ["name", "waiting"] [v, .int64 3]) ["name"] []
        = .ok [] ∧
      metricRowConverter
          (makeDescMap.convert "pgbouncer" "pools"
            [("name", ⟨.LABEL, "", "n"⟩), ("waiting", ⟨.COUNTER, "", "w"⟩)] .metricRowConverter)
          (rowBuffer ["name", "waiting"] [v, .int64 3])
        = { sent := [], outcome := .panicked .labelCardinality }) := by
  refine ⟨by decide, ?_⟩
  intro v hv
  simp only [List.mem_cons, List.mem_singleton, List.not_mem_nil, or_false] at hv
  rcases hv with rfl | rfl | rfl | rfl <;> exact ⟨by rfl, by decide!⟩

/-- The label loop returns what it was given followed by the values its body
resolves for the label names, in order. -/
theorem metricRowConverter.labelValues_eq (result : rowResult) (labels : List String) :
    ∀ acc labelValues : List String,
      metricRowConverter.labelValues result labels acc = .ok labelValues →
      labelValues = acc ++ labels.filterMap (metricRowConverter.labelValue result) := by
  induction labels with
  | nil =>
    intro acc lv h
    simp only [metricRowConverter.labelValues] at h
    cases h
    simp
  | cons name rest ih =>
    intro acc lv h
    unfold metricRowConverter.labelValues at h
    cases hget : result.ColumnData[result.ColumnIdx.index name]? with
    | none =>
      rw [hget] at h
      cases h
    | some v =>
      rw [hget] at h
      cases v <;> simp only at h <;> have h2 := ih _ lv h <;>
        simp [List.filterMap_cons, metricRowConverter.labelValue, hget, h2]

/-- A list that `filterMap` does not shorten is mapped to values only. -/
theorem filterMap_full {α β : Type} (f : α → Option β) (l : List α)
    (h : (l.filterMap f).length = l.length) : l.map f = (l.filterMap f).map some := by
  induction l with
  | nil => rfl
  | cons a tl ih =>
    cases hf : f a with
    | none =>
      have hle := List.length_filterMap_le f tl
      simp only [List.filterMap_cons, hf, List.length_cons] at h
      omega
    | some b =>
      simp only [List.filterMap_cons, hf, List.length_cons, add_left_inj] at h
      simp [List.filterMap_cons, hf, ih h]

/-- C2: in a namespace mapping built by `convert` from a table with distinct
column names, every sample `metricRowConverter` sends carries the mapping's
label names `m.labels` as the label names of its descriptor and ordered label
values matching them: there are as many label values as label names, and the
i-th label value is the value the label loop resolves for the i-th label name,
whatever the types of the values in the label columns of the row (when a label
column holds a value of a type for which the loop resolves nothing, no sample
is sent at all). -/
theorem C2_label_values_match_label_names (g t : String) (mappings : GoMap ColumnMapping)
    (converter : RowConverter) (hnd : (mappings.map Prod.fst).Nodup) (result : rowResult) :
    ∀ metric ∈ (metricRowConverter (makeDescMap.convert g t mappings converter) result).sent,
      metric.desc.variableLabels = (makeDescMap.convert g t mappings converter).labels ∧
      metric.labelValues.length = (makeDescMap.convert g t mappings converter).labels.length ∧
      (makeDescMap.convert g t mappings converter).labels.map
          (metricRowConverter.labelValue result) = metric.labelValues.map some ∧
      (∀ (i : Nat) (name : String),
        (makeDescMap.convert g t mappings converter).labels[i]? = some name →
        ∃ v, metric.labelValues[i]? = some v ∧
          metricRowConverter.labelValue result name = some v) := by
  intro metric hmetric
  have hlabels : (makeDescMap.convert g t mappings converter).labels =
      makeDescMap.labelNames mappings := rfl
  unfold metricRowConverter at hmetric
  split at hmetric
  · simp at hmetric
  · rename_i labelValues hlv
    rcases metricRowConverter.columns_sent _ result labelValues _ 0 [] [] metric hmetric with
      hin | ⟨k, c, mm, data, _, hl, _, _, hlen, hm⟩
    · simp at hin
    · obtain ⟨cm, _, hent⟩ := makeDescMap.convert_lookup_some g t mappings converter hnd c mm hl
      obtain ⟨hdesc, _⟩ := makeDescMap.entryFor_some _ _ _ hent
      have hvl : mm.desc.variableLabels = makeDescMap.labelNames mappings := by
        rw [hdesc]
        unfold makeDescMap.columnDesc
        split <;> rfl
      have heq := metricRowConverter.labelValues_eq result _ [] labelValues hlv
      rw [List.nil_append, hlabels] at heq
      have hlen2 : labelValues.length = (makeDescMap.labelNames mappings).length := by
        rw [hlen, hvl]
      have hmap : (makeDescMap.labelNames mappings).map (metricRowConverter.labelValue result) =
          labelValues.map some := by
        rw [heq]
        exact filterMap_full _ _ (by rw [← heq]; exact hlen2)
      rw [hm, hlabels]
      refine ⟨hvl, hlen2, hmap, ?_⟩
      intro i name hi
      have h1 : ((makeDescMap.labelNames mappings).map
          (metricRowConverter.labelValue result))[i]? =
          some (metricRowConverter.labelValue result name) := by
        rw [List.getElem?_map, hi]
        rfl
      rw [hmap, List.getElem?_map] at h1
      cases hv : labelValues[i]? with
      | none => rw [hv] at h1; cases h1
      | some v =>
        rw [hv] at h1
        exact ⟨v, rfl, (Option.some.inj h1).symm⟩

/-- C2 (witness): the table `database` LABEL, `port` LABEL, `waiting` COUNTER
and the row `("db1", 6432, 3)`: the sample sent for `waiting` has the label
names `database`, `port` and the label values `db1`, `6432`. -/
theorem C2_label_values_match_label_names_witness :
    (([("database", ⟨.LABEL, "", "d"⟩), ("port", ⟨.LABEL, "", "p"⟩),
        ("waiting", ⟨.COUNTER, "", "w"⟩)] : GoMap ColumnMapping).map Prod.fst).Nodup ∧
    (makeDescMap.convert "pgbouncer" "pools"
        [("database", ⟨.LABEL, "", "d"⟩), ("port", ⟨.LABEL, "", "p"⟩),
          ("waiting", ⟨.COUNTER, "", "w"⟩)] .metricRowConverter).labels = ["database", "port"] ∧
    (metricRowConverter
        (makeDescMap.convert "pgbouncer" "pools"
          [("database", ⟨.LABEL, "", "d"⟩), ("port", ⟨.LABEL, "", "p"⟩),
            ("waiting", ⟨.COUNTER, "", "w"⟩)] .metricRowConverter)
        (rowBuffer ["database", "port", "waiting"] [.string "db1", .int64 6432, .int64 3])).sent
      = [{ desc := ⟨"pgbouncer_pools_waiting", "w", ["database", "port"]⟩,
           valType := .CounterValue, value := .num 3, labelValues := ["db1", "6432"] }] ∧
    (makeDescMap.convert "pgbouncer" "pools"
        [("database", ⟨.LABEL, "", "d"⟩), ("port", ⟨.LABEL, "", "p"⟩),
          ("waiting", ⟨.COUNTER, "", "w"⟩)] .metricRowConverter).labels.map
        (metricRowConverter.labelValue
          (rowBuffer ["database", "port", "waiting"] [.string "db1", .int64 6432, .int64 3]))
      = (["db1", "6432"] : List String).map some :=
  ⟨by decide, by decide, by decide!,
    (C2_label_values_match_label_names "pgbouncer" "pools"
      [("database", ⟨.LABEL, "", "d"⟩), ("port", ⟨.LABEL, "", "p"⟩),
        ("waiting", ⟨.COUNTER, "", "w"⟩)] .metricRowConverter (by decide)
      (rowBuffer ["database", "port", "waiting"] [.string "db1", .int64 6432, .int64 3])
      { desc := ⟨"pgbouncer_pools_waiting", "w", ["database", "port"]⟩,
        valType := .CounterValue, value := .num 3, labelValues := ["db1", "6432"] }
      (by decide!)).2.2.1⟩

/-- C3 (code defect): the label name `database` is missing from the row's
columns `name`, `waiting`; the lookup `ColumnIdx[name]` then yields index 0 and
the label value resolved is the value of the first column, `db1`, not the
empty string. -/
theorem C3_missing_label_reads_first_column :
    GoMap.lookup (rowBuffer ["name", "waiting"] [.string "db1", .int64 3]).ColumnIdx "database"
      = none ∧
    metricRowConverter.labelValues (rowBuffer ["name", "waiting"] [.string "db1", .int64 3])
        ["database"] [] = .ok ["db1"] ∧
    metricRowConverter
        (makeDescMap.convert "pgbouncer" "pools"
          [("database", ⟨.LABEL, "", "d"⟩), ("waiting", ⟨.COUNTER, "", "w"⟩)] .metricRowConverter)
        (rowBuffer ["name", "waiting"] [.string "db1", .int64 3])
      = { sent := [{ desc := ⟨"pgbouncer_pools_waiting", "w", ["database"]⟩,
                     valType := .CounterValue, value := .num 3, labelValues := ["db1"] }]
          outcome := .returned [] none } := by
  refine ⟨by decide, by rfl, by decide!⟩

/-! ## Mapping construction: unknown usage values -/

/-- C4 (counterexample): a table whose only column has a usage outside the
four constants is accepted; `makeDescMap` returns a namespace mapping in which
the column is silently dropped: no entry in `columnMappings`, no label. -/
theorem C4_unknown_usage_accepted :
    makeDescMap [("stats", [("x", ⟨.other 7, "", "d"⟩)])] [] "pgbouncer"
      = [{ namespace_ := "stats", columnMappings := [], labels := [],
           rowFunc := .metricRowConverter }] := by
  decide

/-- C4 (amended): mapping construction is total and never fails; a column
whose usage is outside LABEL, COUNTER, GAUGE, GAUGE_MS is silently dropped: it
gets no entry in `columnMappings` and is not a label name. -/
theorem C4_unknown_usage_dropped (g t : String) (mappings : GoMap ColumnMapping)
    (converter : RowConverter) (hnd : (mappings.map Prod.fst).Nodup)
    (c : String) (cm : ColumnMapping) (hc : (c, cm) ∈ mappings) (code : Nat)
    (hu : cm.usage = ColumnUsage.other code) :
    (makeDescMap.convert g t mappings converter).columnMappings.lookup c = none ∧
    c ∉ (makeDescMap.convert g t mappings converter).labels := by
  constructor
  · rw [makeDescMap.convert_lookup g t mappings converter hnd c cm hc, hu]
    rfl
  · simp only [makeDescMap.convert, makeDescMap.labelNames, List.mem_map, List.mem_filter,
      decide_eq_true_eq, not_exists, not_and, and_imp]
    rintro ⟨c2, cm2⟩ hmem hlab heq
    simp only at heq hlab
    subst heq
    have hpair := List.inj_on_of_nodup_map hnd hmem hc rfl
    obtain rfl : cm2 = cm := congrArg Prod.snd hpair
    rw [hu] at hlab
    exact ColumnUsage.noConfusion hlab

/-- C4 (witness): a table with a COUNTER column and a column of unknown usage. -/
theorem C4_unknown_usage_dropped_witness :
    (([("x", ⟨.other 7, "", "d"⟩), ("waiting", ⟨.COUNTER, "", "w"⟩)] :
        GoMap ColumnMapping).map Prod.fst).Nodup ∧
    (makeDescMap.convert "pgbouncer" "stats"
        [("x", ⟨.other 7, "", "d"⟩), ("waiting", ⟨.COUNTER, "", "w"⟩)]
        .metricRowConverter).columnMappings.lookup "x" = none ∧
    "x" ∉ (makeDescMap.convert "pgbouncer" "stats"
        [("x", ⟨.other 7, "", "d"⟩), ("waiting", ⟨.COUNTER, "", "w"⟩)]
        .metricRowConverter).labels :=
  ⟨by decide,
    C4_unknown_usage_dropped "pgbouncer" "stats"
      [("x", ⟨.other 7, "", "d"⟩), ("waiting", ⟨.COUNTER, "", "w"⟩)] .metricRowConverter
      (by decide) "x" ⟨.other 7, "", "d"⟩ (by decide) 7 rfl⟩

/-! ## Key/value strategy -/

/-- The key/value strategy on a row of fewer than two values. -/
theorem metricKVConverter_short (m : MetricMapNamespace) (result : rowResult)
    (h : result.ColumnData.length < 2) :
    metricKVConverter m result =
      { sent := []
        outcome := .returned [] (some (.kvNotEnoughColumns m.namespace_ result.ColumnData)) } := by
  simp [metricKVConverter, h]

/-- The key/value strategy on a row whose first value is not a string. -/
theorem metricKVConverter_badKey (m : MetricMapNamespace) (result : rowResult)
    (v0 data : DBValue) (rest : List DBValue) (h : result.ColumnData = v0 :: data :: rest)
    (hkey : ∀ key, v0 ≠ DBValue.string key) :
    metricKVConverter m result =
      { sent := []
        outcome := .returned [] (some (.kvKeyNotString m.namespace_ result.ColumnData)) } := by
  unfold metricKVConverter
  cases v0 <;> simp_all

/-- The key/value strategy on a row with a string key and a value. -/
theorem metricKVConverter_key (m : MetricMapNamespace) (result : rowResult)
    (key : String) (data : DBValue) (rest : List DBValue)
    (h : result.ColumnData = DBValue.string key :: data :: rest) :
    metricKVConverter m result =
      match m.columnMappings.lookup key with
      | none => { sent := [], outcome := .returned [] none }
      | some metricMapping =>
        if (dbToFloat64 data).2 = true then
          match MustNewConstMetric metricMapping.desc metricMapping.vtype
              ((dbToFloat64 data).1.mul metricMapping.multiplier) [] with
          | .error p => { sent := [], outcome := .panicked p }
          | .ok metric => { sent := [metric], outcome := .returned [] none }
        else { sent := [], outcome := .returned [Error.kvValue m.namespace_ key data] none } := by
  unfold metricKVConverter
  simp only [h, List.length_cons, List.getElem?_cons_zero, List.getElem?_cons_succ]
  cases m.columnMappings.lookup key with
  | none => simp
  | some mm =>
    generalize dbToFloat64 data = p
    obtain ⟨value, ok⟩ := p
    cases ok <;> simp

/-- C5: `metricKVConverter` returns a fatal error exactly when the row has
fewer than two columns or its first value is not a string; and whenever it
returns a fatal error it has sent no sample and returns no non-fatal error.
The single-column row `("x",)` returns a fatal error. -/
theorem C5_kv_fatal_iff (m : MetricMapNamespace) (result : rowResult) :
    ((∃ nonFatal e, (metricKVConverter m result).outcome = .returned nonFatal (some e)) ↔
      (result.ColumnData.length < 2 ∨
        ∀ key, result.ColumnData[0]? ≠ some (DBValue.string key))) ∧
    (∀ nonFatal e, (metricKVConverter m result).outcome = .returned nonFatal (some e) →
      (metricKVConverter m result).sent = [] ∧ nonFatal = []) ∧
    (∃ e, metricKVConverter m (rowBuffer ["key"] [.string "x"]) =
      { sent := [], outcome := .returned [] (some e) }) := by
  refine ⟨?_, ?_, ⟨_, rfl⟩⟩
  all_goals
    rcases hd : result.ColumnData with _ | ⟨v0, _ | ⟨data, rest⟩⟩
    · simp [metricKVConverter_short m result (by simp [hd]), hd]
    · simp [metricKVConverter_short m result (by simp [hd]), hd]
    · by_cases hkey : ∃ key, v0 = DBValue.string key
      · obtain ⟨key, rfl⟩ := hkey
        rw [metricKVConverter_key m result key data rest hd]
        cases m.columnMappings.lookup key with
        | none => simp
        | some mm =>
          by_cases hok : (dbToFloat64 data).2 = true
          · simp only [hok, if_true]
            cases MustNewConstMetric mm.desc mm.vtype ((dbToFloat64 data).1.mul mm.multiplier) []
              <;> simp
          · simp [hok]
      · have hkey2 : ∀ key, v0 ≠ DBValue.string key := fun key h => hkey ⟨key, h⟩
        rw [metricKVConverter_badKey m result v0 data rest hd hkey2]
        simp [hd, hkey2]

/-- C6 (counterexample): in a key/value namespace whose table also has a
LABEL column, the key `pool_size` has a column mapping and its value `10` is
accepted by `dbToFloat64`, yet no sample is sent: the descriptor has one label
name, `metricKVConverter` passes no label value, and `MustNewConstMetric`
panics. -/
theorem C6_kv_labelled_descriptor_panics :
    (makeDescMap.convert "pgbouncer" "config"
        [("pool_size", ⟨.GAUGE, "", "p"⟩), ("database", ⟨.LABEL, "", "d"⟩)]
        .metricKVConverter).columnMappings.lookup "pool_size"
      = some { vtype := .GaugeValue, desc := ⟨"pgbouncer_config_pool_size", "p", ["database"]⟩,
               multiplier := .num 1 } ∧
    dbToFloat64 (.string "10") = (.num 10, true) ∧
    metricKVConverter
        (makeDescMap.convert "pgbouncer" "config"
          [("pool_size", ⟨.GAUGE, "", "p"⟩), ("database", ⟨.LABEL, "", "d"⟩)] .metricKVConverter)
        (rowBuffer ["key", "value"] [.string "pool_size", .string "10"])
      = { sent := [], outcome := .panicked .labelCardinality } := by
  refine ⟨by decide!, by decide!, by decide!⟩

/-- C6 (amended): on a row with a string key in column 0 and a value in
column 1, whatever the columns after the second: when the key has a column
mapping whose descriptor has no error and no label names and `dbToFloat64`
accepts the value, exactly one sample is sent, with that descriptor and kind,
the coerced value times the multiplier and no label values, and no error is
returned; when the descriptor has an error (a name that is no valid metric
name) or label names, the call panics and nothing is sent; when the key has a
mapping and the coercion fails, nothing is sent and exactly one non-fatal
error is returned; when the key has no mapping, nothing is sent and no error
is returned. -/
theorem C6_kv_conversion (m : MetricMapNamespace) (result : rowResult)
    (key : String) (data : DBValue) (rest : List DBValue)
    (h : result.ColumnData = DBValue.string key :: data :: rest) :
    (∀ metricMapping, m.columnMappings.lookup key = some metricMapping →
      (dbToFloat64 data).2 = true → metricMapping.desc.err = false →
      metricMapping.desc.variableLabels = [] →
      metricKVConverter m result =
        { sent := [{ desc := metricMapping.desc, valType := metricMapping.vtype,
                     value := (dbToFloat64 data).1.mul metricMapping.multiplier,
                     labelValues := [] }]
          outcome := .returned [] none }) ∧
    (∀ metricMapping, m.columnMappings.lookup key = some metricMapping →
      (dbToFloat64 data).2 = true →
      (metricMapping.desc.err = true ∨ metricMapping.desc.variableLabels ≠ []) →
      (metricKVConverter m result).sent = [] ∧
      ∃ p, (metricKVConverter m result).outcome = .panicked p) ∧
    (∀ metricMapping, m.columnMappings.lookup key = some metricMapping →
      (dbToFloat64 data).2 = false →
      metricKVConverter m result =
        { sent := [], outcome := .returned [Error.kvValue m.namespace_ key data] none }) ∧
    (m.columnMappings.lookup key = none →
      metricKVConverter m result = { sent := [], outcome := .returned [] none }) := by
  rw [metricKVConverter_key m result key data rest h]
  refine ⟨?_, ?_, ?_, ?_⟩
  · intro mm hmm hok herr hlab
    simp [hmm, hok, MustNewConstMetric, herr, hlab]
  · intro mm hmm hok hbad
    simp only [hmm, hok, if_true]
    cases hmk : MustNewConstMetric mm.desc mm.vtype ((dbToFloat64 data).1.mul mm.multiplier) []
      with
    | error p => exact ⟨rfl, p, rfl⟩
    | ok metric =>
      obtain ⟨_, hlen, herr⟩ := MustNewConstMetric_ok _ _ _ _ _ hmk
      rcases hbad with hb | hb
      · rw [herr] at hb
        exact absurd hb (by simp)
      · exact absurd (List.length_eq_zero.mp hlen.symm) hb
  · intro mm hmm hok
    simp [hmm, hok]
  · intro hnone
    simp [hnone]

/-- C6 (witness): `("pool_size", "10", "ignored")` with `pool_size` GAUGE sends
one gauge sample of value 10, and `("unknown_key", "5")` sends nothing and
returns no error. -/
theorem C6_kv_conversion_witness :
    metricKVConverter
        (makeDescMap.convert "pgbouncer" "config" [("pool_size", ⟨.GAUGE, "", "p"⟩)]
          .metricKVConverter)
        (rowBuffer ["key", "value", "changeable"]
          [.string "pool_size", .string "10", .string "ignored"])
      = { sent := [{ desc := ⟨"pgbouncer_config_pool_size", "p", []⟩, valType := .GaugeValue,
                     value := .num 10, labelValues := [] }]
          outcome := .returned [] none } ∧
    metricKVConverter
        (makeDescMap.convert "pgbouncer" "config" [("pool_size", ⟨.GAUGE, "", "p"⟩)]
          .metricKVConverter)
        (rowBuffer ["key", "value"] [.string "unknown_key", .string "5"])
      = { sent := [], outcome := .returned [] none } := by
  constructor
  · rw [(C6_kv_conversion _ (rowBuffer ["key", "value", "changeable"]
        [.string "pool_size", .string "10", .string "ignored"]) "pool_size" (.string "10")
        [.string "ignored"] rfl).1
        { vtype := .GaugeValue, desc := ⟨"pgbouncer_config_pool_size", "p", []⟩,
          multiplier := .num 1 } (by decide!) (by decide!) (by decide!) rfl]
    decide!
  · exact (C6_kv_conversion _ (rowBuffer ["key", "value"] [.string "unknown_key", .string "5"])
      "unknown_key" (.string "5") [] rfl).2.2.2 (by decide!)

/-! ## Type coercion to float64 -/

/-- C7: `dbToFloat64` gives (NaN, true) for null; for an int64 and for a
timestamp (its seconds since the epoch) the nearest double with true, which is
the integer itself up to magnitude `2 ^ 53`; a float64 itself with true; for a
string or byte sequence the parsed number with true when `strconv.ParseFloat`
accepts the text and (NaN, false) otherwise; false for any other type. So the
flag is false exactly for an unparsable text and for the other types, and the
value is always a double when a float64 column holds one. `"abc"` is refused,
`"3.5"` gives (3.5, true), `int64(7)` gives (7, true); and `ParseFloat` reads
signs, exponents, hexadecimal mantissas, underscores between digits and the
names of the infinities and NaN, rounds to the nearest double, refuses a text
that overflows and gives a signed zero for one that underflows. -/
theorem C7_dbToFloat64_cases :
    dbToFloat64 .null = (Float64.nan, true) ∧
    (∀ n, dbToFloat64 (.int64 n) = (Float64.ofInt64 n, true)) ∧
    (∀ n : Int, n.natAbs ≤ 2 ^ 53 → dbToFloat64 (.int64 n) = (Float64.num n, true)) ∧
    (∀ v, dbToFloat64 (.float64 v) = (v, true)) ∧
    (∀ unix, dbToFloat64 (.time unix) = (Float64.ofInt64 unix, true)) ∧
    (∀ unix : Int, unix.natAbs ≤ 2 ^ 53 →
      dbToFloat64 (.time unix) = (Float64.num unix, true)) ∧
    (∀ s x, ParseFloat s = some x →
      dbToFloat64 (.string s) = (x, true) ∧ dbToFloat64 (.bytes s) = (x, true)) ∧
    (∀ s, ParseFloat s = none →
      dbToFloat64 (.string s) = (Float64.nan, false) ∧
      dbToFloat64 (.bytes s) = (Float64.nan, false)) ∧
    (∀ b, dbToFloat64 (.bool b) = (Float64.nan, false)) ∧
    (∀ v, (dbToFloat64 v).2 = false ↔
      (∃ s, (v = .string s ∨ v = .bytes s) ∧ ParseFloat s = none) ∨ ∃ b, v = .bool b) ∧
    (∀ v, (∀ x, v = DBValue.float64 x → x.IsDouble) → (dbToFloat64 v).1.IsDouble) ∧
    dbToFloat64 (.string "abc") = (Float64.nan, false) ∧
    dbToFloat64 (.string "3.5") = (Float64.num 3.5, true) ∧
    dbToFloat64 (.bytes "3.5") = (Float64.num 3.5, true) ∧
    dbToFloat64 (.int64 7) = (Float64.num 7, true) ∧
    dbToFloat64 (.int64 9007199254740993) = (Float64.num 9007199254740992, true) ∧
    dbToFloat64 (.time 1700000000) = (Float64.num 1700000000, true) ∧
    dbToFloat64 (.string "9007199254740993") = (Float64.num 9007199254740992, true) ∧
    dbToFloat64 (.string "0.1") =
      (Float64.num (3602879701896397 / 36028797018963968), true) ∧
    dbToFloat64 (.string "-2.5e3") = (Float64.num (-2500), true) ∧
    dbToFloat64 (.string "+1E-2") =
      (Float64.num (5764607523034235 / 576460752303423488), true) ∧
    dbToFloat64 (.string "1e+5") = (Float64.num 100000, true) ∧
    dbToFloat64 (.string ".5") = (Float64.num (1 / 2), true) ∧
    dbToFloat64 (.string "5.") = (Float64.num 5, true) ∧
    dbToFloat64 (.string "1_000") = (Float64.num 1000, true) ∧
    dbToFloat64 (.string "0x1p-2") = (Float64.num (1 / 4), true) ∧
    dbToFloat64 (.string "0x1.8p1") = (Float64.num 3, true) ∧
    dbToFloat64 (.string "0XAP+4") = (Float64.num 160, true) ∧
    dbToFloat64 (.string "1e-400") = (Float64.num 0, true) ∧
    dbToFloat64 (.string "-1e-400") = (Float64.negZero, true) ∧
    dbToFloat64 (.string "-0") = (Float64.negZero, true) ∧
    dbToFloat64 (.string "inf") = (Float64.posInf, true) ∧
    dbToFloat64 (.string "-Infinity") = (Float64.negInf, true) ∧
    dbToFloat64 (.string "NaN") = (Float64.nan, true) ∧
    (∀ s ∈ ["", ".", "1e", "1e400", "-1e400", "_1", "1_", "1__0", "1_e5", "1.5x", " 1", "1.2.3",
        "+-1", "0x", "0x1", "infx", "infinit", "+nan"],
      dbToFloat64 (.string s) = (Float64.nan, false) ∧
      dbToFloat64 (.bytes s) = (Float64.nan, false)) := by
  have hs : ∀ s x, ParseFloat s = some x →
      dbToFloat64 (.string s) = (x, true) ∧ dbToFloat64 (.bytes s) = (x, true) := by
    intro s x h
    simp [dbToFloat64, h]
  have hn : ∀ s, ParseFloat s = none →
      dbToFloat64 (.string s) = (Float64.nan, false) ∧
      dbToFloat64 (.bytes s) = (Float64.nan, false) := by
    intro s h
    simp [dbToFloat64, h]
  refine ⟨rfl, fun _ => rfl, ?_, fun _ => rfl, fun _ => rfl, ?_, hs, hn, fun _ => rfl, ?_, ?_,
    (hn _ (by decide!)).1, (hs _ _ (by decide!)).1, (hs _ _ (by decide!)).2, by decide!,
    by decide!, by decide!, (hs _ _ (by decide!)).1, (hs _ _ (by decide!)).1,
    (hs _ _ (by decide!)).1, (hs _ _ (by decide!)).1, (hs _ _ (by decide!)).1,
    (hs _ _ (by decide!)).1, (hs _ _ (by decide!)).1, (hs _ _ (by decide!)).1,
    (hs _ _ (by decide!)).1, (hs _ _ (by decide!)).1, (hs _ _ (by decide!)).1,
    (hs _ _ (by decide!)).1, (hs _ _ (by decide!)).1, (hs _ _ (by decide!)).1,
    (hs _ _ (by decide!)).1, (hs _ _ (by decide!)).1, (hs _ _ (by decide!)).1, ?_⟩
  · intro n h
    show (Float64.ofInt64 n, true) = (Float64.num n, true)
    rw [Float64.ofInt64_exact n h]
  · intro n h
    show (Float64.ofInt64 n, true) = (Float64.num n, true)
    rw [Float64.ofInt64_exact n h]
  · intro v
    cases v with
    | string s => cases h : ParseFloat s <;> simp [dbToFloat64, h]
    | bytes s => cases h : ParseFloat s <;> simp [dbToFloat64, h]
    | _ => simp [dbToFloat64]
  · intro v hv
    exact dbToFloat64_canon v hv
  · intro s hmem
    apply hn
    simp only [List.mem_cons, List.mem_singleton, List.not_mem_nil, or_false] at hmem
    rcases hmem with rfl | rfl | rfl | rfl | rfl | rfl | rfl | rfl | rfl | rfl | rfl | rfl | rfl |
      rfl | rfl | rfl | rfl | rfl <;> decide!

/-! ## Unit scaling -/

/-- C8: in a namespace mapping built by `convert` from a table with distinct
column names, every sample either row strategy sends comes from a column of
the table whose value `dbToFloat64` accepts, and its value is the coerced raw
value times the double 1e-6 when the column's usage is GAUGE_MS, and the
coerced raw value times 1 when the usage is COUNTER or GAUGE, which is the
coerced raw value itself (a float64 column holding a double). The multiplier
stored is the double 1e-6 for GAUGE_MS and 1 for COUNTER and GAUGE. The raw
value 1500 of a GAUGE_MS column is sent as the double 0.0015; products are
rounded, so the raw value 5 is sent as the double below 0.000005. -/
theorem C8_unit_scaling (g t : String) (mappings : GoMap ColumnMapping)
    (converter : RowConverter) (hnd : (mappings.map Prod.fst).Nodup) (result : rowResult) :
    (∀ metric ∈ (metricRowConverter (makeDescMap.convert g t mappings converter) result).sent,
      ∃ (k : Nat) (c : String) (cm : ColumnMapping) (data : DBValue),
        result.ColumnNames[k]? = some c ∧ (c, cm) ∈ mappings ∧
        result.ColumnData[k]? = some data ∧ (dbToFloat64 data).2 = true ∧
        metric.desc = makeDescMap.columnDesc g t (makeDescMap.labelNames mappings) c cm ∧
        ((cm.usage = .GAUGE_MS ∧
            metric.value = (dbToFloat64 data).1.mul (Float64.ofRat (1 / 1000000))) ∨
         ((cm.usage = .COUNTER ∨ cm.usage = .GAUGE) ∧
            metric.value = (dbToFloat64 data).1.mul (Float64.num 1) ∧
            ((∀ x, data = DBValue.float64 x → x.IsDouble) →
              metric.value = (dbToFloat64 data).1)))) ∧
    (∀ metric ∈ (metricKVConverter (makeDescMap.convert g t mappings converter) result).sent,
      ∃ (key : String) (cm : ColumnMapping) (data : DBValue),
        result.ColumnData[0]? = some (DBValue.string key) ∧ (key, cm) ∈ mappings ∧
        result.ColumnData[1]? = some data ∧ (dbToFloat64 data).2 = true ∧
        metric.desc = makeDescMap.columnDesc g t (makeDescMap.labelNames mappings) key cm ∧
        ((cm.usage = .GAUGE_MS ∧
            metric.value = (dbToFloat64 data).1.mul (Float64.ofRat (1 / 1000000))) ∨
         ((cm.usage = .COUNTER ∨ cm.usage = .GAUGE) ∧
            metric.value = (dbToFloat64 data).1.mul (Float64.num 1) ∧
            ((∀ x, data = DBValue.float64 x → x.IsDouble) →
              metric.value = (dbToFloat64 data).1)))) ∧
    (∀ c cm, (c, cm) ∈ mappings →
      (cm.usage = .GAUGE_MS → ∃ metricMapping,
        (makeDescMap.convert g t mappings converter).columnMappings.lookup c = some metricMapping ∧
        metricMapping.multiplier = Float64.ofRat (1 / 1000000)) ∧
      (cm.usage = .COUNTER ∨ cm.usage = .GAUGE → ∃ metricMapping,
        (makeDescMap.convert g t mappings converter).columnMappings.lookup c = some metricMapping ∧
        metricMapping.multiplier = Float64.num 1)) ∧
    Float64.ofRat (1 / 1000000) = Float64.num (4722366482869645 / 4722366482869645213696) ∧
    metricRowConverter
        (makeDescMap.convert "pgbouncer" "stats" [("avg_wait_time", ⟨.GAUGE_MS, "", "a"⟩)]
          .metricRowConverter)
        (rowBuffer ["avg_wait_time"] [.int64 1500])
      = { sent := [{ desc := ⟨"pgbouncer_stats_avg_wait_time", "a", []⟩, valType := .GaugeValue,
                     value := Float64.ofRat 0.0015, labelValues := [] }]
          outcome := .returned [] none } ∧
    metricKVConverter
        (makeDescMap.convert "pgbouncer" "stats" [("avg_wait_time", ⟨.GAUGE_MS, "", "a"⟩)]
          .metricKVConverter)
        (rowBuffer ["key", "value"] [.string "avg_wait_time", .string "1500"])
      = { sent := [{ desc := ⟨"pgbouncer_stats_avg_wait_time", "a", []⟩, valType := .GaugeValue,
                     value := Float64.ofRat 0.0015, labelValues := [] }]
          outcome := .returned [] none } ∧
    metricRowConverter
        (makeDescMap.convert "pgbouncer" "stats" [("avg_wait_time", ⟨.GAUGE_MS, "", "a"⟩)]
          .metricRowConverter)
        (rowBuffer ["avg_wait_time"] [.int64 5])
      = { sent := [{ desc := ⟨"pgbouncer_stats_avg_wait_time", "a", []⟩, valType := .GaugeValue,
                     value := Float64.num (368934881474191 / 73786976294838206464),
                     labelValues := [] }]
          outcome := .returned [] none } ∧
    Float64.num (368934881474191 / 73786976294838206464) ≠ Float64.ofRat (5 / 1000000) ∧
    metricRowConverter
        (makeDescMap.convert "pgbouncer" "stats" [("total_requests", ⟨.COUNTER, "", "r"⟩)]
          .metricRowConverter)
        (rowBuffer ["total_requests"] [.string "0.1"])
      = { sent := [{ desc := ⟨"pgbouncer_stats_total_requests", "r", []⟩,
                     valType := .CounterValue,
                     value := Float64.num (3602879701896397 / 36028797018963968),
                     labelValues := [] }]
          outcome := .returned [] none } := by
  have key : ∀ (c : String) (mm : MetricMap) (data : DBValue),
      (makeDescMap.convert g t mappings converter).columnMappings.lookup c = some mm →
      ∃ cm, (c, cm) ∈ mappings ∧
        mm.desc = makeDescMap.columnDesc g t (makeDescMap.labelNames mappings) c cm ∧
        ((cm.usage = .GAUGE_MS ∧ (dbToFloat64 data).1.mul mm.multiplier =
            (dbToFloat64 data).1.mul (Float64.ofRat (1 / 1000000))) ∨
         ((cm.usage = .COUNTER ∨ cm.usage = .GAUGE) ∧
            (dbToFloat64 data).1.mul mm.multiplier = (dbToFloat64 data).1.mul (Float64.num 1) ∧
            ((∀ x, data = DBValue.float64 x → x.IsDouble) →
              (dbToFloat64 data).1.mul mm.multiplier = (dbToFloat64 data).1))) := by
    intro c mm data hl
    obtain ⟨cm, hmem, hent⟩ := makeDescMap.convert_lookup_some g t mappings converter hnd c mm hl
    obtain ⟨hdesc, h3⟩ := makeDescMap.entryFor_some _ _ _ hent
    refine ⟨cm, hmem, hdesc, ?_⟩
    have hone : (∀ x, data = DBValue.float64 x → x.IsDouble) →
        (dbToFloat64 data).1.mul (Float64.num 1) = (dbToFloat64 data).1 := by
      intro hd
      rw [Float64.mul_num_one]
      exact dbToFloat64_canon data hd
    rcases h3 with ⟨hu, _, hmul⟩ | ⟨hu, _, hmul⟩ | ⟨hu, _, hmul⟩
    · exact Or.inl ⟨hu, by rw [hmul]⟩
    · exact Or.inr ⟨Or.inl hu, by rw [hmul], by rw [hmul]; exact hone⟩
    · exact Or.inr ⟨Or.inr hu, by rw [hmul], by rw [hmul]; exact hone⟩
  refine ⟨?_, ?_, ?_, by decide!, by decide!, by decide!, by decide!, by decide!, by decide!⟩
  · intro metric hmetric
    unfold metricRowConverter at hmetric
    split at hmetric
    · simp at hmetric
    · rename_i labelValues _
      rcases metricRowConverter.columns_sent _ result labelValues _ 0 [] [] metric hmetric with
        hin | ⟨k, c, mm, data, hk, hl, hd, hok, _, hm⟩
      · simp at hin
      · obtain ⟨cm, hmem, hdesc, hval⟩ := key c mm data hl
        refine ⟨k, c, cm, data, hk, hmem, by simpa using hd, hok, by rw [hm, hdesc], ?_⟩
        rw [hm]
        exact hval
  · intro metric hmetric
    rcases hd : result.ColumnData with _ | ⟨v0, _ | ⟨data, rest⟩⟩
    · rw [metricKVConverter_short _ result (by simp [hd])] at hmetric
      simp at hmetric
    · rw [metricKVConverter_short _ result (by simp [hd])] at hmetric
      simp at hmetric
    · by_cases hkey : ∃ key, v0 = DBValue.string key
      · obtain ⟨k, rfl⟩ := hkey
        rw [metricKVConverter_key _ result k data rest hd] at hmetric
        cases hl : (makeDescMap.convert g t mappings converter).columnMappings.lookup k with
        | none => simp [hl] at hmetric
        | some mm =>
          by_cases hok : (dbToFloat64 data).2 = true
          · simp only [hl, hok, if_true] at hmetric
            cases hmk : MustNewConstMetric mm.desc mm.vtype
                ((dbToFloat64 data).1.mul mm.multiplier) [] with
            | error p => simp [hmk] at hmetric
            | ok metric1 =>
              simp only [hmk, List.mem_singleton] at hmetric
              obtain ⟨hm1, _⟩ := MustNewConstMetric_ok _ _ _ _ _ hmk
              obtain ⟨cm, hmem, hdesc, hval⟩ := key k mm data hl
              refine ⟨k, cm, data, by simp, hmem, by simp, hok, by rw [hmetric, hm1, hdesc], ?_⟩
              rw [hmetric, hm1]
              exact hval
          · simp [hl, hok] at hmetric
      · rw [metricKVConverter_badKey _ result v0 data rest hd (fun k h => hkey ⟨k, h⟩)] at hmetric
        simp at hmetric
  · intro c cm hmem
    have hl := makeDescMap.convert_lookup g t mappings converter hnd c cm hmem
    constructor
    · intro hu
      rw [hu] at hl
      exact ⟨_, hl, rfl⟩
    · rintro (hu | hu) <;> rw [hu] at hl <;> exact ⟨_, hl, rfl⟩

/-- C8 (witness): a table with a GAUGE_MS and a COUNTER column, and the row
`avg_wait_time = 1500`, `total_requests = 7` converted by the wide-row
strategy: the sample of the COUNTER column has the raw value 7. -/
theorem C8_unit_scaling_witness :
    (([("avg_wait_time", ⟨.GAUGE_MS, "", "a"⟩), ("total_requests", ⟨.COUNTER, "", "r"⟩)] :
        GoMap ColumnMapping).map Prod.fst).Nodup ∧
    (∃ metricMapping,
      (makeDescMap.convert "pgbouncer" "stats"
          [("avg_wait_time", ⟨.GAUGE_MS, "", "a"⟩), ("total_requests", ⟨.COUNTER, "", "r"⟩)]
          .metricRowConverter).columnMappings.lookup "avg_wait_time" = some metricMapping ∧
      metricMapping.multiplier = Float64.ofRat (1 / 1000000)) ∧
    (∃ (k : Nat) (c : String) (cm : ColumnMapping) (data : DBValue),
      (rowBuffer ["avg_wait_time", "total_requests"] [.int64 1500, .int64 7]).ColumnNames[k]?
        = some c ∧
      (c, cm) ∈ ([("avg_wait_time", ⟨.GAUGE_MS, "", "a"⟩),
        ("total_requests", ⟨.COUNTER, "", "r"⟩)] : GoMap ColumnMapping) ∧
      (rowBuffer ["avg_wait_time", "total_requests"] [.int64 1500, .int64 7]).ColumnData[k]?
        = some data ∧
      (dbToFloat64 data).2 = true ∧
      (⟨"pgbouncer_stats_total_requests", "r", []⟩ : Desc) =
        makeDescMap.columnDesc "pgbouncer" "stats"
          (makeDescMap.labelNames [("avg_wait_time", ⟨.GAUGE_MS, "", "a"⟩),
            ("total_requests", ⟨.COUNTER, "", "r"⟩)]) c cm ∧
      ((cm.usage = .GAUGE_MS ∧
          Float64.num 7 = (dbToFloat64 data).1.mul (Float64.ofRat (1 / 1000000))) ∨
       ((cm.usage = .COUNTER ∨ cm.usage = .GAUGE) ∧
          Float64.num 7 = (dbToFloat64 data).1.mul (Float64.num 1) ∧
          ((∀ x, data = DBValue.float64 x → x.IsDouble) →
            Float64.num 7 = (dbToFloat64 data).1)))) :=
  ⟨by decide,
    ((C8_unit_scaling "pgbouncer" "stats"
      [("avg_wait_time", ⟨.GAUGE_MS, "", "a"⟩), ("total_requests", ⟨.COUNTER, "", "r"⟩)]
      .metricRowConverter (by decide) (rowBuffer [] [])).2.2.1
      "avg_wait_time" ⟨.GAUGE_MS, "", "a"⟩ (by decide)).1 rfl,
    (C8_unit_scaling "pgbouncer" "stats"
      [("avg_wait_time", ⟨.GAUGE_MS, "", "a"⟩), ("total_requests", ⟨.COUNTER, "", "r"⟩)]
      .metricRowConverter (by decide)
      (rowBuffer ["avg_wait_time", "total_requests"] [.int64 1500, .int64 7])).1
      { desc := ⟨"pgbouncer_stats_total_requests", "r", []⟩, valType := .CounterValue,
        value := Float64.num 7, labelValues := [] } (by decide!)⟩

/-! ## Collector: probe failure and error accounting -/

/-- C9: when the connectivity probe fails, `Collect` returns having sent
exactly the four meta-metrics and nothing else (duration, up = 0,
scrapes_total = previous value + 1, last_scrape_error = 1), whatever the
namespace mappings of the exporter; the result does not depend on what the
database would answer to a query, so no namespace query is issued. -/
theorem C9_probe_failure (e : Exporter) (db : DB) (elapsed : Float64)
    (hping : db.ping = false) :
    (e.Collect db elapsed).ending = .returned ∧
    (e.Collect db elapsed).sent =
      [ { desc := NewDesc (BuildFQName e.namespace_ "last_scrape_duration_seconds")
            "Duration of the last scrape of metrics from PgBouncer." []
          valType := .GaugeValue, value := elapsed, labelValues := [] },
        { desc := NewDesc (BuildFQName e.namespace_ "up")
            "Was the PgBouncer instance query successful?" []
          valType := .GaugeValue, value := Float64.num 0, labelValues := [] },
        { desc := NewDesc (BuildFQName e.namespace_ "scrapes_total")
            "Total number of times PgBouncer has been scraped for metrics." []
          valType := .CounterValue, value := e.totalScrapes.add (Float64.num 1),
          labelValues := [] },
        { desc := NewDesc (BuildFQName e.namespace_ "last_scrape_error")
            "Whether the last scrape of metrics from PgBouncer resulted in an error (1 for error, 0 for success)." []
          valType := .GaugeValue, value := Float64.num 1, labelValues := [] } ] ∧
    (e.Collect db elapsed).sent.length = 4 ∧
    (e.Collect db elapsed).exporter.up = Float64.num 0 ∧
    (e.Collect db elapsed).exporter.error = Float64.num 1 ∧
    (e.Collect db elapsed).exporter.totalScrapes = e.totalScrapes.add (Float64.num 1) ∧
    (∀ n : ℚ, e.totalScrapes = Float64.num n →
      (e.Collect db elapsed).exporter.totalScrapes = Float64.num (n + 1)) ∧
    (∀ query, e.Collect { ping := false, query := query } elapsed = e.Collect db elapsed) := by
  have h : ∀ db1 : DB, db1.ping = false → e.Collect db1 elapsed =
      { sent := [ Exporter.durationMetric
                    { e with error := Float64.num 1, up := Float64.num 0, duration := elapsed,
                             totalScrapes := e.totalScrapes.add (Float64.num 1) },
                  Exporter.upMetric
                    { e with error := Float64.num 1, up := Float64.num 0, duration := elapsed,
                             totalScrapes := e.totalScrapes.add (Float64.num 1) },
                  Exporter.totalScrapesMetric
                    { e with error := Float64.num 1, up := Float64.num 0, duration := elapsed,
                             totalScrapes := e.totalScrapes.add (Float64.num 1) },
                  Exporter.errorMetric
                    { e with error := Float64.num 1, up := Float64.num 0, duration := elapsed,
                             totalScrapes := e.totalScrapes.add (Float64.num 1) } ]
        exporter := { e with error := Float64.num 1, up := Float64.num 0, duration := elapsed,
                             totalScrapes := e.totalScrapes.add (Float64.num 1) }
        ending := .returned } := by
    intro db1 h1
    simp [Exporter.Collect, Exporter.scrape, h1]
  rw [h db hping]
  refine ⟨rfl, rfl, rfl, rfl, rfl, rfl, ?_, ?_⟩
  · intro n hn
    simp [hn, Float64.add]
  · intro query
    rw [h _ rfl]

/-- C9 (witness): an exporter with one namespace mapping, in front of a
database that is down. -/
theorem C9_probe_failure_witness :
    (⟨false, fun _ => none⟩ : DB).ping = false ∧
    ((NewExporter [("pools", [("name", ⟨.LABEL, "", "n"⟩), ("waiting", ⟨.COUNTER, "", "w"⟩)])] []
        "pgbouncer").Collect ⟨false, fun _ => none⟩ (Float64.num 0.25)).sent.length = 4 :=
  ⟨rfl, (C9_probe_failure _ ⟨false, fun _ => none⟩ (Float64.num 0.25) rfl).2.2.1⟩

/-- The loop of `scrape` when every namespace query returns without a fatal
error: it returns, and the error gauge has grown by the number of non-fatal
errors of all the queries; the other fields are unchanged. -/
theorem Exporter.scrape.namespaces_returned (db : DB) (l : List MetricMapNamespace) :
    ∀ (e : Exporter) (sent : List Metric) (x : ℚ), e.error = Float64.num x →
      (∀ m ∈ l, ∃ nonFatal, (m.Query db).outcome = .returned nonFatal none) →
      ∃ sent1, Exporter.scrape.namespaces db l e sent =
        { sent := sent1
          exporter :=
            { e with error := Float64.num (x + ((l.map (fun m => (m.Query db).nonFatalCount)).sum : Nat)) }
          ending := .returned } := by
  induction l with
  | nil =>
    intro e sent x hx _
    refine ⟨sent, ?_⟩
    cases e
    simp_all [Exporter.scrape.namespaces]
  | cons mapping rest ih =>
    intro e sent x hx hq
    obtain ⟨nonFatal, hnf⟩ := hq mapping (List.mem_cons_self _ _)
    rcases hrun : mapping.Query db with ⟨sent1, outcome⟩
    rw [hrun] at hnf
    simp only at hnf
    subst hnf
    obtain ⟨sent2, h2⟩ := ih
      { e with error := e.error.add (Float64.ofNat nonFatal.length) } (sent ++ sent1)
      (x + nonFatal.length) (by simp [hx, Float64.add, Float64.ofNat])
      (fun m hm => hq m (List.mem_cons_of_mem _ hm))
    refine ⟨sent2, ?_⟩
    unfold Exporter.scrape.namespaces
    simp only [hrun]
    rw [h2]
    simp [Run.nonFatalCount, hrun, add_assoc]

/-- C10: when the probe succeeds and every namespace query returns without a
fatal error, the scrape returns with `last_scrape_error` equal to the total
number of non-fatal errors returned by the namespace queries, whatever the
value of the gauge before the scrape; `up` is 1 and `scrapes_total` has grown
by exactly 1. -/
theorem C10_error_gauge_accounting (e : Exporter) (db : DB) (elapsed : Float64)
    (hping : db.ping = true)
    (hq : ∀ m ∈ e.metricMap, ∃ nonFatal, (m.Query db).outcome = .returned nonFatal none) :
    (e.scrape db elapsed).ending = .returned ∧
    (e.scrape db elapsed).exporter.error =
      Float64.num (((e.metricMap.map (fun m => (m.Query db).nonFatalCount)).sum : Nat) : ℚ) ∧
    (∀ previous, ({ e with error := previous }.scrape db elapsed).exporter.error =
      (e.scrape db elapsed).exporter.error) ∧
    (e.scrape db elapsed).exporter.up = Float64.num 1 ∧
    (e.scrape db elapsed).exporter.totalScrapes = e.totalScrapes.add (Float64.num 1) ∧
    (∀ n : ℚ, e.totalScrapes = Float64.num n →
      (e.scrape db elapsed).exporter.totalScrapes = Float64.num (n + 1)) := by
  have h : ∀ previous, ∃ sent1, { e with error := previous }.scrape db elapsed =
      { sent := sent1
        exporter :=
          { e with
            error := Float64.num
              (((e.metricMap.map (fun m => (m.Query db).nonFatalCount)).sum : Nat) : ℚ)
            totalScrapes := e.totalScrapes.add (Float64.num 1)
            up := Float64.num 1
            duration := elapsed }
        ending := .returned } := by
    intro previous
    obtain ⟨sent1, h1⟩ := Exporter.scrape.namespaces_returned db e.metricMap
      { e with error := Float64.num 0, totalScrapes := e.totalScrapes.add (Float64.num 1),
               up := Float64.num 1 } [] 0 rfl hq
    refine ⟨sent1, ?_⟩
    simp only [Exporter.scrape, hping]
    simp [h1]
  obtain ⟨sent0, h0⟩ := h e.error
  have h0e : e.scrape db elapsed = _ := h0
  rw [h0e]
  refine ⟨rfl, rfl, ?_, rfl, rfl, ?_⟩
  · intro previous
    obtain ⟨sent1, h1⟩ := h previous
    rw [h1]
  · intro n hn
    simp [hn, Float64.add]

/-- C10 (witness): one wide-row namespace whose single row has one column
that does not parse; the scrape leaves `last_scrape_error` at 1. -/
theorem C10_error_gauge_accounting_witness :
    (⟨true, fun _ => some ⟨some ["name", "waiting", "idle"],
        [some [.string "db1", .int64 3, .string "notanumber"]], false⟩⟩ : DB).ping = true ∧
    ((NewExporter
        [("pools", [("name", ⟨.LABEL, "", "n"⟩), ("waiting", ⟨.COUNTER, "", "w"⟩),
                    ("idle", ⟨.GAUGE, "", "i"⟩)])] [] "pgbouncer").scrape
      ⟨true, fun _ => some ⟨some ["name", "waiting", "idle"],
        [some [.string "db1", .int64 3, .string "notanumber"]], false⟩⟩
      (Float64.num 0.25)).exporter.error = Float64.num 1 :=
  ⟨rfl,
    (C10_error_gauge_accounting
      (NewExporter
        [("pools", [("name", ⟨.LABEL, "", "n"⟩), ("waiting", ⟨.COUNTER, "", "w"⟩),
                    ("idle", ⟨.GAUGE, "", "i"⟩)])] [] "pgbouncer")
      ⟨true, fun _ => some ⟨some ["name", "waiting", "idle"],
        [some [.string "db1", .int64 3, .string "notanumber"]], false⟩⟩
      (Float64.num 0.25) rfl
      (by
        intro m hm
        simp only [NewExporter, makeDescMap, List.map_cons, List.map_nil, List.append_nil,
          List.mem_singleton] at hm
        subst hm
        exact ⟨[.parseColumn "pools" "idle" (.string "notanumber")], by decide!⟩)).2.1.trans
      (by decide!)⟩

/-! ## Collector: the meta-metrics and a fatal namespace -/

/-- When `Collect` returns, what it sent is what the scrape sent followed by
the four meta-metrics, read from the exporter state the scrape left. -/
theorem Exporter.Collect_returned (e : Exporter) (db : DB) (elapsed : Float64)
    (h : (e.Collect db elapsed).ending = .returned) :
    (e.scrape db elapsed).ending = .returned ∧
    (e.Collect db elapsed).sent =
      (e.scrape db elapsed).sent ++
        [(e.scrape db elapsed).exporter.durationMetric, (e.scrape db elapsed).exporter.upMetric,
         (e.scrape db elapsed).exporter.totalScrapesMetric,
         (e.scrape db elapsed).exporter.errorMetric] := by
  unfold Exporter.Collect at h ⊢
  rcases hs : e.scrape db elapsed with ⟨sent, e1, ending⟩
  rw [hs] at h
  cases ending with
  | returned => exact ⟨rfl, rfl⟩
  | exited => simp at h
  | panicked p => simp at h

/-- When the scrape does not return, `Collect` sends nothing after it. -/
theorem Exporter.Collect_not_returned (e : Exporter) (db : DB) (elapsed : Float64)
    (h : (e.scrape db elapsed).ending ≠ .returned) :
    e.Collect db elapsed = e.scrape db elapsed := by
  unfold Exporter.Collect
  rcases hs : e.scrape db elapsed with ⟨sent, e1, ending⟩
  rw [hs] at h
  cases ending with
  | returned => exact absurd rfl h
  | exited => rfl
  | panicked p => rfl

/-- C11 (code defect): the probe succeeds and the query of the only namespace
fails, so `Query` returns a fatal error; `scrape` then stops the process in
`log.Fatal` (line 304, marked "this needs to be removed" in the source) and
`Collect` sends none of the four meta-metrics. -/
theorem C11_fatal_namespace_sends_no_meta_metrics :
    (NewExporter [("pools", [("name", ⟨.LABEL, "", "n"⟩), ("waiting", ⟨.COUNTER, "", "w"⟩)])] []
        "pgbouncer").Collect ⟨true, fun _ => none⟩ (Float64.num 0.25)
      = { sent := []
          exporter :=
            { NewExporter [("pools", [("name", ⟨.LABEL, "", "n"⟩), ("waiting", ⟨.COUNTER, "", "w"⟩)])]
                [] "pgbouncer" with
              up := Float64.num 1, totalScrapes := Float64.num 1 }
          ending := .exited } := by
  decide!

/-- A step of the loop of `scrape` on a query that returns no fatal error. -/
theorem Exporter.scrape.namespaces_cons_ok (db : DB) (mapping : MetricMapNamespace)
    (rest : List MetricMapNamespace) (e : Exporter) (sent sent1 : List Metric)
    (nonFatal : List Error)
    (h : mapping.Query db = { sent := sent1, outcome := .returned nonFatal none }) :
    Exporter.scrape.namespaces db (mapping :: rest) e sent =
      Exporter.scrape.namespaces db rest
        { e with error := e.error.add (Float64.ofNat nonFatal.length) } (sent ++ sent1) := by
  rw [Exporter.scrape.namespaces]
  simp only [h]

/-- A step of the loop of `scrape` on a query that returns a fatal error. -/
theorem Exporter.scrape.namespaces_cons_fatal (db : DB) (mapping : MetricMapNamespace)
    (rest : List MetricMapNamespace) (e : Exporter) (sent sent1 : List Metric)
    (nonFatal : List Error) (fatal : Error)
    (h : mapping.Query db = { sent := sent1, outcome := .returned nonFatal (some fatal) }) :
    Exporter.scrape.namespaces db (mapping :: rest) e sent =
      { sent := sent ++ sent1, exporter := e, ending := .exited } := by
  rw [Exporter.scrape.namespaces]
  simp only [h]

/-- A step of the loop of `scrape` on a query that panics. -/
theorem Exporter.scrape.namespaces_cons_panic (db : DB) (mapping : MetricMapNamespace)
    (rest : List MetricMapNamespace) (e : Exporter) (sent sent1 : List Metric) (p : Panic)
    (h : mapping.Query db = { sent := sent1, outcome := .panicked p }) :
    Exporter.scrape.namespaces db (mapping :: rest) e sent =
      { sent := sent ++ sent1, exporter := e, ending := .panicked p } := by
  rw [Exporter.scrape.namespaces]
  simp only [h]

/-- The loop of `scrape` over a prefix of namespaces whose queries all return
without a fatal error: their samples are sent in order and the loop goes on
with the rest, only the error gauge having changed. -/
theorem Exporter.scrape.namespaces_prefix (db : DB) (pre tail : List MetricMapNamespace) :
    ∀ (e : Exporter) (sent : List Metric),
      (∀ m ∈ pre, ∃ nonFatal, (m.Query db).outcome = .returned nonFatal none) →
      ∃ err, Exporter.scrape.namespaces db (pre ++ tail) e sent =
        Exporter.scrape.namespaces db tail { e with error := err }
          (sent ++ (pre.map (fun m => (m.Query db).sent)).flatten) := by
  induction pre with
  | nil =>
    intro e sent _
    exact ⟨e.error, by simp⟩
  | cons mapping rest ih =>
    intro e sent hq
    obtain ⟨nonFatal, hnf⟩ := hq mapping (List.mem_cons_self _ _)
    rcases hrun : mapping.Query db with ⟨sent1, outcome⟩
    rw [hrun] at hnf
    simp only at hnf
    subst hnf
    obtain ⟨err, h2⟩ := ih { e with error := e.error.add (Float64.ofNat nonFatal.length) }
      (sent ++ sent1) (fun m hm => hq m (List.mem_cons_of_mem _ hm))
    refine ⟨err, ?_⟩
    rw [List.cons_append, Exporter.scrape.namespaces_cons_ok db mapping _ e sent sent1 nonFatal hrun,
      h2]
    simp [hrun]

/-- C14: when the probe succeeds and namespace mapper `k` is the first whose
query returns a fatal error, the process stops in `log.Fatal`; what has been
sent by then is, in order, the samples of the mappers before `k` followed by
what mapper `k` sent before failing, and nothing depends on the mappers after
`k`, which are not queried. -/
theorem C14_fatal_namespace_keeps_earlier_samples (e : Exporter) (db : DB) (elapsed : Float64)
    (pre : List MetricMapNamespace) (k : MetricMapNamespace) (post : List MetricMapNamespace)
    (nonFatal : List Error) (fatal : Error)
    (hping : db.ping = true) (hmap : e.metricMap = pre ++ k :: post)
    (hpre : ∀ m ∈ pre, ∃ n, (m.Query db).outcome = .returned n none)
    (hk : (k.Query db).outcome = .returned nonFatal (some fatal)) :
    (e.Collect db elapsed).ending = .exited ∧
    (e.Collect db elapsed).sent =
      (pre.map (fun m => (m.Query db).sent)).flatten ++ (k.Query db).sent ∧
    (∀ post2, ({ e with metricMap := pre ++ k :: post2 }.Collect db elapsed).sent =
        (e.Collect db elapsed).sent ∧
      ({ e with metricMap := pre ++ k :: post2 }.Collect db elapsed).ending = .exited) := by
  have main : ∀ (e0 : Exporter) (post0 : List MetricMapNamespace),
      e0.metricMap = pre ++ k :: post0 →
      (e0.Collect db elapsed).ending = .exited ∧
      (e0.Collect db elapsed).sent =
        (pre.map (fun m => (m.Query db).sent)).flatten ++ (k.Query db).sent := by
    intro e0 post0 hm
    obtain ⟨mm0, ns0, up0, dur0, ts0, er0⟩ := e0
    simp only at hm
    subst hm
    have hs : ((Exporter.mk (pre ++ k :: post0) ns0 up0 dur0 ts0 er0).scrape db elapsed).ending
          = .exited ∧
        ((Exporter.mk (pre ++ k :: post0) ns0 up0 dur0 ts0 er0).scrape db elapsed).sent =
          (pre.map (fun m => (m.Query db).sent)).flatten ++ (k.Query db).sent := by
      simp only [Exporter.scrape, hping]
      obtain ⟨err, h1⟩ := Exporter.scrape.namespaces_prefix db pre (k :: post0)
        (Exporter.mk (pre ++ k :: post0) ns0 (Float64.num 1) dur0 (ts0.add (Float64.num 1))
          (Float64.num 0)) [] hpre
      rcases hrun : k.Query db with ⟨sentk, outcome⟩
      rw [hrun] at hk
      simp only at hk
      subst hk
      simp only [Bool.true_eq_false, if_false]
      rw [h1, Exporter.scrape.namespaces_cons_fatal db k post0 _ _ sentk nonFatal fatal hrun]
      simp
    rw [Exporter.Collect_not_returned _ db elapsed (by simp [hs.1])]
    exact hs
  refine ⟨(main e post hmap).1, (main e post hmap).2, ?_⟩
  intro post2
  have h2 := main { e with metricMap := pre ++ k :: post2 } post2 rfl
  exact ⟨by rw [h2.2, (main e post hmap).2], h2.1⟩

/-- C14 (witness): two namespaces, the second with a single-column key/value
row; the sample of the first stays sent and the process exits. -/
theorem C14_fatal_namespace_keeps_earlier_samples_witness :
    ((NewExporter [("pools", [("name", ⟨.LABEL, "", "n"⟩), ("waiting", ⟨.COUNTER, "", "w"⟩)])]
        [("config", [("pool_size", ⟨.GAUGE, "", "p"⟩)])] "pgbouncer").Collect
      ⟨true, fun q =>
        if q = "SHOW pools;" then
          some ⟨some ["name", "waiting"], [some [.string "db1", .int64 3]], false⟩
        else some ⟨some ["key"], [some [.string "x"]], false⟩⟩
      (Float64.num 0.25)).sent
      = [{ desc := ⟨"pgbouncer_pools_waiting", "w", ["name"]⟩, valType := .CounterValue,
           value := .num 3, labelValues := ["db1"] }] ∧
    ((NewExporter [("pools", [("name", ⟨.LABEL, "", "n"⟩), ("waiting", ⟨.COUNTER, "", "w"⟩)])]
        [("config", [("pool_size", ⟨.GAUGE, "", "p"⟩)])] "pgbouncer").Collect
      ⟨true, fun q =>
        if q = "SHOW pools;" then
          some ⟨some ["name", "waiting"], [some [.string "db1", .int64 3]], false⟩
        else some ⟨some ["key"], [some [.string "x"]], false⟩⟩
      (Float64.num 0.25)).ending = .exited := by
  have h := C14_fatal_namespace_keeps_earlier_samples
    (NewExporter [("pools", [("name", ⟨.LABEL, "", "n"⟩), ("waiting", ⟨.COUNTER, "", "w"⟩)])]
      [("config", [("pool_size", ⟨.GAUGE, "", "p"⟩)])] "pgbouncer")
    ⟨true, fun q =>
      if q = "SHOW pools;" then
        some ⟨some ["name", "waiting"], [some [.string "db1", .int64 3]], false⟩
      else some ⟨some ["key"], [some [.string "x"]], false⟩⟩
    (Float64.num 0.25)
    [makeDescMap.convert "pgbouncer" "pools"
      [("name", ⟨.LABEL, "", "n"⟩), ("waiting", ⟨.COUNTER, "", "w"⟩)] .metricRowConverter]
    (makeDescMap.convert "pgbouncer" "config" [("pool_size", ⟨.GAUGE, "", "p"⟩)]
      .metricKVConverter)
    [] [] (.kvNotEnoughColumns "config" [.string "x"]) rfl rfl
    (by
      intro m hm
      rw [List.mem_singleton] at hm
      subst hm
      exact ⟨[], by decide!⟩)
    (by decide!)
  exact ⟨h.2.1.trans (by decide!), h.1⟩

/-! ## Namespace query: the row loop -/

/-- Scanning a row into a row buffer of the same columns. -/
theorem MetricMapNamespace.Query.scan_rowBuffer (columnNames : List String)
    (data values : List DBValue) :
    MetricMapNamespace.Query.scan (rowBuffer columnNames data) (some values) =
      if values.length = data.length then some (rowBuffer columnNames values) else none := by
  simp [MetricMapNamespace.Query.scan, rowBuffer]

/-- A step of the row loop on a row that is read and converted without a
fatal error. -/
theorem MetricMapNamespace.Query.rowsLoop_cons_ok (m : MetricMapNamespace) (rowsErr : Bool)
    (columnNames : List String) (data values : List DBValue)
    (rest : List (Option (List DBValue))) (sent : List Metric) (errs : List Error)
    (n : List Error) (hlen : values.length = data.length)
    (h : (m.rowFunc.call m (rowBuffer columnNames values)).outcome = .returned n none) :
    MetricMapNamespace.Query.rowsLoop m rowsErr (rowBuffer columnNames data)
        (some values :: rest) sent errs =
      MetricMapNamespace.Query.rowsLoop m rowsErr (rowBuffer columnNames values) rest
        (sent ++ (m.rowFunc.call m (rowBuffer columnNames values)).sent) (errs ++ n) := by
  rw [MetricMapNamespace.Query.rowsLoop, MetricMapNamespace.Query.scan_rowBuffer, if_pos hlen]
  rcases hrun : m.rowFunc.call m (rowBuffer columnNames values) with ⟨sent1, outcome⟩
  rw [hrun] at h
  simp only at h
  subst h
  simp only [hrun]

/-- A step of the row loop on a row that is read and on which the strategy
returns a fatal error. -/
theorem MetricMapNamespace.Query.rowsLoop_cons_fatal (m : MetricMapNamespace) (rowsErr : Bool)
    (columnNames : List String) (data values : List DBValue)
    (rest : List (Option (List DBValue))) (sent : List Metric) (errs : List Error)
    (n : List Error) (e : Error) (hlen : values.length = data.length)
    (h : (m.rowFunc.call m (rowBuffer columnNames values)).outcome = .returned n (some e)) :
    MetricMapNamespace.Query.rowsLoop m rowsErr (rowBuffer columnNames data)
        (some values :: rest) sent errs =
      { sent := sent ++ (m.rowFunc.call m (rowBuffer columnNames values)).sent
        outcome := .returned (errs ++ n) (some e) } := by
  rw [MetricMapNamespace.Query.rowsLoop, MetricMapNamespace.Query.scan_rowBuffer, if_pos hlen]
  rcases hrun : m.rowFunc.call m (rowBuffer columnNames values) with ⟨sent1, outcome⟩
  rw [hrun] at h
  simp only at h
  subst h
  simp only [hrun]

/-- A step of the row loop on a row that cannot be read. -/
theorem MetricMapNamespace.Query.rowsLoop_cons_unread (m : MetricMapNamespace) (rowsErr : Bool)
    (columnNames : List String) (data : List DBValue) (row : Option (List DBValue))
    (rest : List (Option (List DBValue))) (sent : List Metric) (errs : List Error)
    (h : row = none ∨ ∃ values, row = some values ∧ values.length ≠ data.length) :
    MetricMapNamespace.Query.rowsLoop m rowsErr (rowBuffer columnNames data)
        (row :: rest) sent errs =
      { sent := sent, outcome := .returned [] (some (.rowScanFailed m.namespace_)) } := by
  rw [MetricMapNamespace.Query.rowsLoop]
  rcases h with rfl | ⟨values, rfl, hne⟩
  · rfl
  · rw [MetricMapNamespace.Query.scan_rowBuffer, if_neg hne]

/-- The row loop over a prefix of rows that are all read and converted
without a fatal error: their samples and non-fatal errors are accumulated in
row order and the loop goes on with the rest. -/
theorem MetricMapNamespace.Query.rowsLoop_prefix (m : MetricMapNamespace) (rowsErr : Bool)
    (columnNames : List String) (pre : List (List DBValue))
    (tail : List (Option (List DBValue))) :
    ∀ (data : List DBValue) (sent : List Metric) (errs : List Error),
      data.length = columnNames.length →
      (∀ values ∈ pre, values.length = columnNames.length ∧
        ∃ n, (m.rowFunc.call m (rowBuffer columnNames values)).outcome = .returned n none) →
      ∃ data1, data1.length = columnNames.length ∧
        MetricMapNamespace.Query.rowsLoop m rowsErr (rowBuffer columnNames data)
            (pre.map some ++ tail) sent errs =
          MetricMapNamespace.Query.rowsLoop m rowsErr (rowBuffer columnNames data1) tail
            (sent ++ (pre.map (fun v => (m.rowFunc.call m (rowBuffer columnNames v)).sent)).flatten)
            (errs ++
              (pre.map (fun v => (m.rowFunc.call m (rowBuffer columnNames v)).nonFatal)).flatten) := by
  induction pre with
  | nil =>
    intro data sent errs hlen _
    exact ⟨data, hlen, by simp⟩
  | cons values rest ih =>
    intro data sent errs hlen hpre
    obtain ⟨hv, n, hn⟩ := hpre values (List.mem_cons_self _ _)
    obtain ⟨data1, hlen1, h1⟩ := ih values
      (sent ++ (m.rowFunc.call m (rowBuffer columnNames values)).sent) (errs ++ n) hv
      (fun v hvm => hpre v (List.mem_cons_of_mem _ hvm))
    refine ⟨data1, hlen1, ?_⟩
    rw [List.map_cons, List.cons_append,
      MetricMapNamespace.Query.rowsLoop_cons_ok m rowsErr columnNames data values _ sent errs n
        (by rw [hv, hlen]) hn, h1]
    simp [Run.nonFatal, hn]

/-- C12: in a cursor whose rows before row `k` are all read and converted
without a fatal error, (1) if row `k` cannot be read, `Query` returns a fatal
error having sent exactly the samples of the rows before `k`; (2) if the
strategy returns a fatal error on row `k`, `Query` returns that fatal error
together with the non-fatal errors of the rows up to and including `k`,
having sent the samples of the rows before `k` and what the strategy sent on
row `k`. In both cases nothing depends on the rows after `k`: none of them is
converted. -/
theorem C12_query_aborts_on_first_failure (m : MetricMapNamespace) (db : DB)
    (columnNames : List String) (pre : List (List DBValue)) (k : Option (List DBValue))
    (post : List (Option (List DBValue))) (rowsErr : Bool)
    (hq : db.query ("SHOW " ++ m.namespace_ ++ ";") =
      some { columns := some columnNames, rows := pre.map some ++ k :: post, err := rowsErr })
    (hpre : ∀ values ∈ pre, values.length = columnNames.length ∧
      ∃ n, (m.rowFunc.call m (rowBuffer columnNames values)).outcome = .returned n none) :
    ((k = none ∨ ∃ values, k = some values ∧ values.length ≠ columnNames.length) →
      m.Query db =
        { sent := (pre.map (fun v => (m.rowFunc.call m (rowBuffer columnNames v)).sent)).flatten
          outcome := .returned [] (some (.rowScanFailed m.namespace_)) }) ∧
    (∀ values n e, k = some values → values.length = columnNames.length →
      (m.rowFunc.call m (rowBuffer columnNames values)).outcome = .returned n (some e) →
      m.Query db =
        { sent := (pre.map (fun v => (m.rowFunc.call m (rowBuffer columnNames v)).sent)).flatten ++
            (m.rowFunc.call m (rowBuffer columnNames values)).sent
          outcome := .returned
            ((pre.map (fun v => (m.rowFunc.call m (rowBuffer columnNames v)).nonFatal)).flatten ++ n)
            (some e) }) := by
  obtain ⟨data1, hlen1, h1⟩ := MetricMapNamespace.Query.rowsLoop_prefix m rowsErr columnNames pre
    (k :: post) (List.replicate columnNames.length DBValue.null) [] [] (by simp) hpre
  have hQ : m.Query db = MetricMapNamespace.Query.rowsLoop m rowsErr (rowBuffer columnNames data1)
      (k :: post)
      ([] ++ (pre.map (fun v => (m.rowFunc.call m (rowBuffer columnNames v)).sent)).flatten)
      ([] ++ (pre.map (fun v => (m.rowFunc.call m (rowBuffer columnNames v)).nonFatal)).flatten) := by
    rw [← h1]
    simp only [MetricMapNamespace.Query, hq]
    rfl
  constructor
  · intro hk
    rw [hQ, MetricMapNamespace.Query.rowsLoop_cons_unread m rowsErr columnNames data1 k post _ _
      (by rw [hlen1]; exact hk)]
    simp
  · intro values n e hk hlen hfatal
    subst hk
    rw [hQ, MetricMapNamespace.Query.rowsLoop_cons_fatal m rowsErr columnNames data1 values post
      _ _ n e (by rw [hlen, hlen1]) hfatal]
    simp

/-- C12 (witness): a key/value cursor whose second row has an integer key; the
sample of the first row stays sent, the third row is not converted. -/
theorem C12_query_aborts_on_first_failure_witness :
    (makeDescMap.convert "pgbouncer" "config" [("pool_size", ⟨.GAUGE, "", "p"⟩)]
        .metricKVConverter).Query
      ⟨true, fun _ => some ⟨some ["key", "value"],
        [some [.string "pool_size", .string "10"], some [.int64 5, .string "1"],
         some [.string "pool_size", .string "11"]], false⟩⟩
      = { sent := [{ desc := ⟨"pgbouncer_config_pool_size", "p", []⟩, valType := .GaugeValue,
                     value := .num 10, labelValues := [] }]
          outcome := .returned []
            (some (.kvKeyNotString "config" [.int64 5, .string "1"])) } := by
  have h := (C12_query_aborts_on_first_failure
    (makeDescMap.convert "pgbouncer" "config" [("pool_size", ⟨.GAUGE, "", "p"⟩)]
      .metricKVConverter)
    ⟨true, fun _ => some ⟨some ["key", "value"],
      [some [.string "pool_size", .string "10"], some [.int64 5, .string "1"],
       some [.string "pool_size", .string "11"]], false⟩⟩
    ["key", "value"] [[.string "pool_size", .string "10"]] (some [.int64 5, .string "1"])
    [some [.string "pool_size", .string "11"]] false rfl
    (by
      intro values hv
      rw [List.mem_singleton] at hv
      subst hv
      exact ⟨rfl, [], by decide!⟩)).2
    [.int64 5, .string "1"] [] (.kvKeyNotString "config" [.int64 5, .string "1"]) rfl rfl
    (by decide!)
  exact h.trans (by decide!)

/-- C13: when every row of the cursor is read and converted without a fatal
error, `Query` returns no fatal error, has sent the samples of all the rows in
row order, and returns the non-fatal errors of the rows concatenated in row
order, followed by exactly one more non-fatal error when `rows.Err()` reports
a consumption error and by nothing otherwise. -/
theorem C13_query_consumption_error_is_non_fatal (m : MetricMapNamespace) (db : DB)
    (columnNames : List String) (rows : List (List DBValue)) (rowsErr : Bool)
    (hq : db.query ("SHOW " ++ m.namespace_ ++ ";") =
      some { columns := some columnNames, rows := rows.map some, err := rowsErr })
    (hrows : ∀ values ∈ rows, values.length = columnNames.length ∧
      ∃ n, (m.rowFunc.call m (rowBuffer columnNames values)).outcome = .returned n none) :
    m.Query db =
      { sent := (rows.map (fun v => (m.rowFunc.call m (rowBuffer columnNames v)).sent)).flatten
        outcome := .returned
          ((rows.map (fun v => (m.rowFunc.call m (rowBuffer columnNames v)).nonFatal)).flatten ++
            (if rowsErr then [Error.rowsErr] else []))
          none } := by
  obtain ⟨data1, _, h1⟩ := MetricMapNamespace.Query.rowsLoop_prefix m rowsErr columnNames rows
    [] (List.replicate columnNames.length DBValue.null) [] [] (by simp) hrows
  have hQ : m.Query db = MetricMapNamespace.Query.rowsLoop m rowsErr (rowBuffer columnNames data1) []
      ([] ++ (rows.map (fun v => (m.rowFunc.call m (rowBuffer columnNames v)).sent)).flatten)
      ([] ++ (rows.map (fun v => (m.rowFunc.call m (rowBuffer columnNames v)).nonFatal)).flatten) := by
    rw [← h1]
    simp only [MetricMapNamespace.Query, hq, List.append_nil]
    rfl
  rw [hQ, MetricMapNamespace.Query.rowsLoop]
  cases rowsErr <;> simp

/-- C13 (witness): a wide-row cursor of one row with a column that does not
parse, and a consumption error after the iteration. -/
theorem C13_query_consumption_error_is_non_fatal_witness :
    (makeDescMap.convert "pgbouncer" "pools"
        [("name", ⟨.LABEL, "", "n"⟩), ("waiting", ⟨.COUNTER, "", "w"⟩), ("idle", ⟨.GAUGE, "", "i"⟩)]
        .metricRowConverter).Query
      ⟨true, fun _ => some ⟨some ["name", "waiting", "idle"],
        [some [.string "db1", .int64 3, .string "notanumber"]], true⟩⟩
      = { sent := [{ desc := ⟨"pgbouncer_pools_waiting", "w", ["name"]⟩, valType := .CounterValue,
                     value := .num 3, labelValues := ["db1"] }]
          outcome := .returned
            [.parseColumn "pools" "idle" (.string "notanumber"), .rowsErr] none } := by
  have h := C13_query_consumption_error_is_non_fatal
    (makeDescMap.convert "pgbouncer" "pools"
      [("name", ⟨.LABEL, "", "n"⟩), ("waiting", ⟨.COUNTER, "", "w"⟩), ("idle", ⟨.GAUGE, "", "i"⟩)]
      .metricRowConverter)
    ⟨true, fun _ => some ⟨some ["name", "waiting", "idle"],
      [some [.string "db1", .int64 3, .string "notanumber"]], true⟩⟩
    ["name", "waiting", "idle"] [[.string "db1", .int64 3, .string "notanumber"]] true rfl
    (by
      intro values hv
      rw [List.mem_singleton] at hv
      subst hv
      exact ⟨rfl, [.parseColumn "pools" "idle" (.string "notanumber")], by decide!⟩)
  exact h.trans (by decide!)

/-! ## Descriptor derivation -/

/-- A key of a map after an insertion is the inserted key or an older key. -/
theorem GoMap.mem_keys_insert {β : Type} (m : GoMap β) (k x : String) (v : β)
    (h : x ∈ (m.insert k v).map Prod.fst) : x = k ∨ x ∈ m.map Prod.fst := by
  induction m with
  | nil =>
    simp only [GoMap.insert, List.map_cons, List.map_nil, List.mem_singleton] at h
    exact Or.inl h
  | cons hd tl ih =>
    obtain ⟨k1, v1⟩ := hd
    by_cases hk : k1 = k
    · simp only [GoMap.insert, hk, if_true, List.map_cons, List.mem_cons] at h
      rcases h with h | h
      · exact Or.inl h
      · exact Or.inr (List.mem_cons_of_mem _ h)
    · simp only [GoMap.insert, hk, if_false, List.map_cons, List.mem_cons] at h
      rcases h with h | h
      · exact Or.inr (by simp [h])
      · rcases ih h with h1 | h1
        · exact Or.inl h1
        · exact Or.inr (List.mem_cons_of_mem _ h1)

/-- Insertion keeps the keys of a map distinct. -/
theorem GoMap.insert_keys_nodup {β : Type} (m : GoMap β) (k : String) (v : β)
    (h : (m.map Prod.fst).Nodup) : ((m.insert k v).map Prod.fst).Nodup := by
  induction m with
  | nil => simp [GoMap.insert]
  | cons hd tl ih =>
    obtain ⟨k1, v1⟩ := hd
    simp only [List.map_cons, List.nodup_cons] at h
    by_cases hk : k1 = k
    · subst hk
      simpa [GoMap.insert] using h
    · simp only [GoMap.insert, hk, if_false, List.map_cons, List.nodup_cons]
      refine ⟨fun hmem => ?_, ih h.2⟩
      rcases GoMap.mem_keys_insert tl k k1 v hmem with h1 | h1
      · exact hk h1
      · exact h.1 h1

/-- A key with an entry is among the keys. -/
theorem GoMap.mem_keys_of_lookup {β : Type} (m : GoMap β) (k : String) (v : β)
    (h : m.lookup k = some v) : k ∈ m.map Prod.fst := by
  induction m with
  | nil => simp [GoMap.lookup] at h
  | cons hd tl ih =>
    obtain ⟨k1, v1⟩ := hd
    by_cases hk : k1 = k
    · simp [hk]
    · simp only [GoMap.lookup, hk, if_false] at h
      exact List.mem_cons_of_mem _ (ih h)

/-- The map `convert` builds has one entry per key. -/
theorem makeDescMap.convert_keys_nodup (g t : String) (mappings : GoMap ColumnMapping)
    (converter : RowConverter) :
    ((makeDescMap.convert g t mappings converter).columnMappings.map Prod.fst).Nodup := by
  simp only [makeDescMap.convert]
  have : ∀ (l : GoMap ColumnMapping) (acc : GoMap MetricMap), (acc.map Prod.fst).Nodup →
      ((l.foldl (makeDescMap.convertStep g t (makeDescMap.labelNames mappings)) acc).map
        Prod.fst).Nodup := by
    intro l
    induction l with
    | nil => intro acc h; exact h
    | cons hd tl ih =>
      intro acc h
      rw [List.foldl_cons]
      apply ih
      unfold makeDescMap.convertStep
      cases hd.2.usage <;> simp only <;> first | exact h | exact GoMap.insert_keys_nodup _ _ _ h
  exact this mappings [] (by simp)

/-- C15: in the mapping `convert` builds from a table with distinct column
names, every column `c` of usage COUNTER, GAUGE or GAUGE_MS has exactly one
entry, whose descriptor has the fully-qualified name `g_t_o` when the override
name `o` is non-empty and `g_t_c` otherwise, the description as help text,
and as label names exactly the names of the LABEL columns of the table (the
list stored as the namespace's `labels`), and whose kind is counter for
COUNTER and gauge for GAUGE and GAUGE_MS. -/
theorem C15_descriptor_derivation (g t : String) (mappings : GoMap ColumnMapping)
    (converter : RowConverter) (hnd : (mappings.map Prod.fst).Nodup)
    (c : String) (cm : ColumnMapping) (hc : (c, cm) ∈ mappings)
    (hu : cm.usage = .COUNTER ∨ cm.usage = .GAUGE ∨ cm.usage = .GAUGE_MS) :
    ∃ metricMapping,
      (makeDescMap.convert g t mappings converter).columnMappings.lookup c = some metricMapping ∧
      ((makeDescMap.convert g t mappings converter).columnMappings.map Prod.fst).count c = 1 ∧
      metricMapping.desc.fqName =
        g ++ "_" ++ t ++ "_" ++ (if cm.promMetricName ≠ "" then cm.promMetricName else c) ∧
      metricMapping.desc.help = cm.description ∧
      metricMapping.desc.variableLabels = (makeDescMap.convert g t mappings converter).labels ∧
      (∀ name, name ∈ metricMapping.desc.variableLabels ↔
        ∃ cmLabel, (name, cmLabel) ∈ mappings ∧ cmLabel.usage = .LABEL) ∧
      metricMapping.vtype = (if cm.usage = .COUNTER then .CounterValue else .GaugeValue) := by
  have hl := makeDescMap.convert_lookup g t mappings converter hnd c cm hc
  have hdesc : ∀ d : Desc,
      d = makeDescMap.columnDesc g t (makeDescMap.labelNames mappings) c cm →
      d.fqName = g ++ "_" ++ t ++ "_" ++ (if cm.promMetricName ≠ "" then cm.promMetricName else c) ∧
      d.help = cm.description ∧
      d.variableLabels = (makeDescMap.convert g t mappings converter).labels ∧
      (∀ name, name ∈ d.variableLabels ↔
        ∃ cmLabel, (name, cmLabel) ∈ mappings ∧ cmLabel.usage = .LABEL) := by
    intro d hd
    subst hd
    have hlabels : ∀ name, name ∈ makeDescMap.labelNames mappings ↔
        ∃ cmLabel, (name, cmLabel) ∈ mappings ∧ cmLabel.usage = .LABEL := by
      intro name
      simp only [makeDescMap.labelNames, List.mem_map, List.mem_filter, decide_eq_true_eq]
      constructor
      · rintro ⟨⟨n, cmx⟩, ⟨hmem, hlab⟩, rfl⟩
        exact ⟨cmx, hmem, hlab⟩
      · rintro ⟨cmx, hmem, hlab⟩
        exact ⟨(name, cmx), ⟨hmem, hlab⟩, rfl⟩
    unfold makeDescMap.columnDesc
    refine ⟨?_, ?_, ?_, ?_⟩
    · by_cases ho : cm.promMetricName = "" <;> simp [ho, NewDesc, sprintfName]
    · split <;> rfl
    · split <;> rfl
    · split <;> exact hlabels
  have hcount : ∀ mm, (makeDescMap.convert g t mappings converter).columnMappings.lookup c = some mm →
      ((makeDescMap.convert g t mappings converter).columnMappings.map Prod.fst).count c = 1 :=
    fun mm h => List.count_eq_one_of_mem (makeDescMap.convert_keys_nodup g t mappings converter)
      (GoMap.mem_keys_of_lookup _ c mm h)
  rcases hu with hu | hu | hu <;> rw [hu] at hl <;>
    exact ⟨_, hl, hcount _ hl, (hdesc _ rfl).1, (hdesc _ rfl).2.1, (hdesc _ rfl).2.2.1,
      (hdesc _ rfl).2.2.2, by simp [hu]⟩

/-- C15 (witness): a COUNTER column with an override name, next to a LABEL
column. -/
theorem C15_descriptor_derivation_witness :
    ∃ metricMapping,
      (makeDescMap.convert "pgbouncer" "pools"
          [("name", ⟨.LABEL, "", "n"⟩), ("waiting", ⟨.COUNTER, "cl_waiting", "w"⟩)]
          .metricRowConverter).columnMappings.lookup "waiting" = some metricMapping ∧
      metricMapping.desc = ⟨"pgbouncer_pools_cl_waiting", "w", ["name"]⟩ ∧
      metricMapping.vtype = .CounterValue := by
  obtain ⟨mm, h1, _, h3, h4, h5, _, h7⟩ := C15_descriptor_derivation "pgbouncer" "pools"
    [("name", ⟨.LABEL, "", "n"⟩), ("waiting", ⟨.COUNTER, "cl_waiting", "w"⟩)]
    .metricRowConverter (by decide) "waiting" ⟨.COUNTER, "cl_waiting", "w"⟩ (by decide)
    (Or.inl rfl)
  refine ⟨mm, h1, ?_, h7⟩
  have hd : mm.desc = ⟨mm.desc.fqName, mm.desc.help, mm.desc.variableLabels⟩ := rfl
  rw [hd, h3, h4, h5]
  decide

/-! ## Type coercion to label strings -/

/-- C16: `dbToString` gives the empty string with true for null; a string
itself and the text of a byte sequence, with true; the decimal text of an
int64, the text of a float64 and the decimal text of the seconds since the
epoch of a timestamp, with true; and the empty string with false for any other
type. So the flag is false exactly for the other types. -/
theorem C16_dbToString_cases (sprintFloat : Float64 → String) :
    dbToString sprintFloat .null = ("", true) ∧
    (∀ s, dbToString sprintFloat (.string s) = (s, true)) ∧
    (∀ s, dbToString sprintFloat (.bytes s) = (s, true)) ∧
    (∀ n, dbToString sprintFloat (.int64 n) = (FormatInt n, true)) ∧
    (∀ v, dbToString sprintFloat (.float64 v) = (sprintFloat v, true)) ∧
    (∀ unix, dbToString sprintFloat (.time unix) = (FormatInt unix, true)) ∧
    (∀ b, dbToString sprintFloat (.bool b) = ("", false)) ∧
    (∀ v, (dbToString sprintFloat v).2 = false ↔ ∃ b, v = .bool b) ∧
    dbToString sprintFloat (.int64 (-12)) = ("-12", true) ∧
    dbToString sprintFloat (.time 1700000000) = ("1700000000", true) := by
  refine ⟨rfl, fun _ => rfl, fun _ => rfl, fun _ => rfl, fun _ => rfl, fun _ => rfl,
    fun _ => rfl, ?_, ?_, ?_⟩
  · intro v
    cases v <;> simp [dbToString]
  · show (FormatInt (-12), true) = ("-12", true)
    decide
  · show (FormatInt 1700000000, true) = ("1700000000", true)
    decide

/-! ## Describe -/

/-- The loop of `scrape` sends the same samples and ends the same way whatever
the values of the meta-metrics, and changes none of the namespace mappings,
the exporter namespace and the scrape counter. -/
theorem Exporter.scrape.namespaces_shape (db : DB) (l : List MetricMapNamespace) :
    ∀ (e e2 : Exporter) (sent : List Metric),
      (Exporter.scrape.namespaces db l e sent).sent =
        (Exporter.scrape.namespaces db l e2 sent).sent ∧
      (Exporter.scrape.namespaces db l e sent).ending =
        (Exporter.scrape.namespaces db l e2 sent).ending ∧
      (Exporter.scrape.namespaces db l e sent).exporter.metricMap = e.metricMap ∧
      (Exporter.scrape.namespaces db l e sent).exporter.namespace_ = e.namespace_ ∧
      (Exporter.scrape.namespaces db l e sent).exporter.totalScrapes = e.totalScrapes := by
  induction l with
  | nil =>
    intro e e2 sent
    simp [Exporter.scrape.namespaces]
  | cons mapping rest ih =>
    intro e e2 sent
    rcases hrun : mapping.Query db with ⟨sent1, outcome⟩
    cases outcome with
    | panicked p =>
      rw [Exporter.scrape.namespaces_cons_panic db mapping rest e sent sent1 p hrun,
        Exporter.scrape.namespaces_cons_panic db mapping rest e2 sent sent1 p hrun]
      exact ⟨rfl, rfl, rfl, rfl, rfl⟩
    | returned n fatal =>
      cases fatal with
      | some f =>
        rw [Exporter.scrape.namespaces_cons_fatal db mapping rest e sent sent1 n f hrun,
          Exporter.scrape.namespaces_cons_fatal db mapping rest e2 sent sent1 n f hrun]
        exact ⟨rfl, rfl, rfl, rfl, rfl⟩
      | none =>
        rw [Exporter.scrape.namespaces_cons_ok db mapping rest e sent sent1 n hrun,
          Exporter.scrape.namespaces_cons_ok db mapping rest e2 sent sent1 n hrun]
        exact ih _ _ _

/-- Two scrapes of the same database by exporters with the same namespace
mappings send the same samples and end the same way; a scrape keeps the
mappings and the exporter namespace and adds one to the scrape counter. -/
theorem Exporter.scrape_shape (e e2 : Exporter) (db : DB) (elapsed elapsed2 : Float64)
    (hm : e2.metricMap = e.metricMap) :
    (e.scrape db elapsed).sent = (e2.scrape db elapsed2).sent ∧
    (e.scrape db elapsed).ending = (e2.scrape db elapsed2).ending ∧
    (e.scrape db elapsed).exporter.metricMap = e.metricMap ∧
    (e.scrape db elapsed).exporter.namespace_ = e.namespace_ ∧
    (e.scrape db elapsed).exporter.totalScrapes = e.totalScrapes.add (Float64.num 1) := by
  obtain ⟨mm, ns, up, dur, ts, er⟩ := e
  obtain ⟨mm2, ns2, up2, dur2, ts2, er2⟩ := e2
  simp only at hm
  subst hm
  have H := Exporter.scrape.namespaces_shape db mm2
    (Exporter.mk mm2 ns (Float64.num 1) dur (ts.add (Float64.num 1)) (Float64.num 0))
    (Exporter.mk mm2 ns2 (Float64.num 1) dur2 (ts2.add (Float64.num 1)) (Float64.num 0)) []
  simp only [Exporter.scrape]
  cases hp : db.ping
  · simp
  · simp only [Bool.true_eq_false, if_false]
    revert H
    generalize Exporter.scrape.namespaces db mm2
      (Exporter.mk mm2 ns (Float64.num 1) dur (ts.add (Float64.num 1)) (Float64.num 0)) [] = r
    generalize Exporter.scrape.namespaces db mm2
      (Exporter.mk mm2 ns2 (Float64.num 1) dur2 (ts2.add (Float64.num 1)) (Float64.num 0)) [] = r2
    obtain ⟨s1, x1, end1⟩ := r
    obtain ⟨s2, x2, end2⟩ := r2
    simp only
    rintro ⟨rfl, rfl, h3, h4, h5⟩
    cases end1 <;> exact ⟨rfl, rfl, h3, h4, h5⟩

/-- `Collect` leaves the exporter state the scrape left. -/
theorem Exporter.Collect_exporter (e : Exporter) (db : DB) (elapsed : Float64) :
    (e.Collect db elapsed).exporter = (e.scrape db elapsed).exporter ∧
    (e.Collect db elapsed).ending = (e.scrape db elapsed).ending := by
  unfold Exporter.Collect
  rcases e.scrape db elapsed with ⟨sent, e1, ending⟩
  cases ending <;> exact ⟨rfl, rfl⟩

/-- Two collections of the same database by exporters with the same namespace
mappings and exporter namespace send samples with the same descriptors, kinds
and label values, in the same order, and end the same way. -/
theorem Exporter.Collect_shape (e e2 : Exporter) (db : DB) (elapsed elapsed2 : Float64)
    (hm : e2.metricMap = e.metricMap) (hn : e2.namespace_ = e.namespace_) :
    (e.Collect db elapsed).sent.map (fun m => (m.desc, m.valType, m.labelValues)) =
      (e2.Collect db elapsed2).sent.map (fun m => (m.desc, m.valType, m.labelValues)) ∧
    (e.Collect db elapsed).ending = (e2.Collect db elapsed2).ending := by
  obtain ⟨h1, h2, _, h4, _⟩ := Exporter.scrape_shape e e2 db elapsed elapsed2 hm
  obtain ⟨_, _, _, k4, _⟩ := Exporter.scrape_shape e2 e db elapsed2 elapsed hm.symm
  unfold Exporter.Collect
  revert h1 h2 h4 k4
  generalize e.scrape db elapsed = r
  generalize e2.scrape db elapsed2 = r2
  obtain ⟨s1, x1, end1⟩ := r
  obtain ⟨s2, x2, end2⟩ := r2
  simp only
  rintro rfl rfl h4 k4
  cases end1 with
  | returned =>
    simp [Exporter.durationMetric, Exporter.upMetric, Exporter.totalScrapesMetric,
      Exporter.errorMetric, h4, k4, hn]
  | exited => exact ⟨rfl, rfl⟩
  | panicked p => exact ⟨rfl, rfl⟩

/-- C17: `Describe` forwards exactly the descriptors of the samples of a
`Collect`, one per sample and in order; when it returns and is called a second
time on the state the first call left, against a database that answers the
same, it returns again and forwards the same descriptors, and the samples
collected have the same descriptors, kinds and label values, although the
scrape counter has grown by one in between. -/
theorem C17_describe_idempotent (e : Exporter) (db : DB) (elapsed elapsed2 : Float64)
    (hret : (e.Describe db elapsed).ending = .returned) :
    (e.Describe db elapsed).descs = (e.Collect db elapsed).sent.map (fun m => m.desc) ∧
    (e.Describe db elapsed).descs.length = (e.Collect db elapsed).sent.length ∧
    ((e.Describe db elapsed).exporter.Describe db elapsed2).ending = .returned ∧
    ((e.Describe db elapsed).exporter.Describe db elapsed2).descs =
      (e.Describe db elapsed).descs ∧
    ((e.Describe db elapsed).exporter.Collect db elapsed2).sent.map
        (fun m => (m.desc, m.valType, m.labelValues)) =
      (e.Collect db elapsed).sent.map (fun m => (m.desc, m.valType, m.labelValues)) ∧
    (e.Describe db elapsed).exporter.totalScrapes = e.totalScrapes.add (Float64.num 1) := by
  have hd : ∀ (x : Exporter) (el : Float64),
      (x.Describe db el).descs = (x.Collect db el).sent.map (fun m => m.desc) ∧
      (x.Describe db el).exporter = (x.Collect db el).exporter ∧
      (x.Describe db el).ending = (x.Collect db el).ending := by
    intro x el
    unfold Exporter.Describe
    exact ⟨rfl, rfl, rfl⟩
  obtain ⟨_, _, f3, f4, f5⟩ := Exporter.scrape_shape e e db elapsed elapsed rfl
  have hx : (e.Describe db elapsed).exporter = (e.scrape db elapsed).exporter := by
    rw [(hd e elapsed).2.1, (Exporter.Collect_exporter e db elapsed).1]
  have hshape := Exporter.Collect_shape (e.Describe db elapsed).exporter e db elapsed2 elapsed
    (by rw [hx, f3]) (by rw [hx, f4])
  refine ⟨(hd e elapsed).1, by rw [(hd e elapsed).1, List.length_map], ?_, ?_, hshape.1,
    by rw [hx, f5]⟩
  · rw [(hd _ elapsed2).2.2, hshape.2, ← (hd e elapsed).2.2]
    exact hret
  · rw [(hd _ elapsed2).1, (hd e elapsed).1]
    have := congrArg (List.map (fun t : Desc × ValueType × List String => t.1)) hshape.1
    simpa [List.map_map, Function.comp] using this

/-- C17 (witness): an exporter with one wide-row namespace and a database
answering one row; the first `Describe` forwards five descriptors and so does
the second. -/
theorem C17_describe_idempotent_witness :
    (((NewExporter [("pools", [("name", ⟨.LABEL, "", "n"⟩), ("waiting", ⟨.COUNTER, "", "w"⟩)])] []
        "pgbouncer").Describe
      ⟨true, fun _ => some ⟨some ["name", "waiting"], [some [.string "db1", .int64 3]], false⟩⟩
      (Float64.num 0.25)).exporter.Describe
      ⟨true, fun _ => some ⟨some ["name", "waiting"], [some [.string "db1", .int64 3]], false⟩⟩
      (Float64.num 0.5)).descs
      = [⟨"pgbouncer_pools_waiting", "w", ["name"]⟩,
         ⟨"pgbouncer_last_scrape_duration_seconds",
           "Duration of the last scrape of metrics from PgBouncer.", []⟩,
         ⟨"pgbouncer_up", "Was the PgBouncer instance query successful?", []⟩,
         ⟨"pgbouncer_scrapes_total",
           "Total number of times PgBouncer has been scraped for metrics.", []⟩,
         ⟨"pgbouncer_last_scrape_error",
           "Whether the last scrape of metrics from PgBouncer resulted in an error (1 for error, 0 for success).",
           []⟩] :=
  (C17_describe_idempotent
    (NewExporter [("pools", [("name", ⟨.LABEL, "", "n"⟩), ("waiting", ⟨.COUNTER, "", "w"⟩)])] []
      "pgbouncer")
    ⟨true, fun _ => some ⟨some ["name", "waiting"], [some [.string "db1", .int64 3]], false⟩⟩
    (Float64.num 0.25) (Float64.num 0.5) (by decide!)).2.2.2.1.trans (by decide!)

/-! ## The error gauge is a count -/

/-- C18 (code defect): the help text of `last_scrape_error` says "1 for error,
0 for success", but `scrape` adds the number of non-fatal errors of each
namespace to the gauge (line 306): after a scrape that returns, with one row
in which two columns do not parse, the gauge is 2. -/
theorem C18_error_gauge_counts_errors :
    ((NewExporter
        [("pools", [("name", ⟨.LABEL, "", "n"⟩), ("waiting", ⟨.COUNTER, "", "w"⟩),
                    ("idle", ⟨.GAUGE, "", "i"⟩)])] [] "pgbouncer").scrape
      ⟨true, fun _ => some ⟨some ["name", "waiting", "idle"],
        [some [.string "db1", .string "many", .string "notanumber"]], false⟩⟩
      (Float64.num 0.25)).ending = .returned ∧
    ((NewExporter
        [("pools", [("name", ⟨.LABEL, "", "n"⟩), ("waiting", ⟨.COUNTER, "", "w"⟩),
                    ("idle", ⟨.GAUGE, "", "i"⟩)])] [] "pgbouncer").scrape
      ⟨true, fun _ => some ⟨some ["name", "waiting", "idle"],
        [some [.string "db1", .string "many", .string "notanumber"]], false⟩⟩
      (Float64.num 0.25)).exporter.error = Float64.num 2 := by
  constructor <;> decide!

/-! ## Wide-row strategy: safety on well-formed row buffers -/

/-- The label loop reads no slot out of range when every label name indexes a
slot of the row data. -/
theorem metricRowConverter.labelValues_in_range (result : rowResult) (labels : List String) :
    ∀ acc : List String,
      (∀ name ∈ labels, result.ColumnIdx.index name < result.ColumnData.length) →
      ∃ labelValues, metricRowConverter.labelValues result labels acc = .ok labelValues := by
  induction labels with
  | nil => intro acc _; exact ⟨acc, rfl⟩
  | cons name rest ih =>
    intro acc h
    have hlt := h name (List.mem_cons_self _ _)
    have hrest := fun n hn => h n (List.mem_cons_of_mem _ hn)
    have hget : result.ColumnData[result.ColumnIdx.index name]? =
        some result.ColumnData[result.ColumnIdx.index name] := List.getElem?_eq_getElem hlt
    generalize result.ColumnData[result.ColumnIdx.index name] = v at hget
    unfold metricRowConverter.labelValues
    cases v <;> simp only [hget] <;> exact ih _ hrest

/-- The column loop reads no slot out of range and returns no fatal error when
the row data has a slot for every column left. -/
theorem metricRowConverter.columns_safe (m : MetricMapNamespace) (result : rowResult)
    (labelValues : List String) (cols : List String) :
    ∀ (idx : Nat) (sent : List Metric) (errs : List Error),
      idx + cols.length ≤ result.ColumnData.length →
      (∃ nonFatal,
        (metricRowConverter.columns m result labelValues idx cols sent errs).outcome =
          .returned nonFatal none) ∨
      (∃ p, p ≠ Panic.indexOutOfRange ∧
        (metricRowConverter.columns m result labelValues idx cols sent errs).outcome =
          .panicked p) := by
  induction cols with
  | nil =>
    intro idx sent errs _
    exact Or.inl ⟨errs, rfl⟩
  | cons c rest ih =>
    intro idx sent errs hlen
    simp only [List.length_cons] at hlen
    have hidx : idx < result.ColumnData.length := by omega
    have hget : result.ColumnData[idx]? = some result.ColumnData[idx] :=
      List.getElem?_eq_getElem hidx
    generalize result.ColumnData[idx] = data at hget
    unfold metricRowConverter.columns
    cases hl : m.columnMappings.lookup c with
    | none => exact ih (idx + 1) sent errs (by omega)
    | some mm =>
      rcases hf : dbToFloat64 data with ⟨value, ok⟩
      cases ok with
      | false =>
        simp only [hget, hf]
        exact ih (idx + 1) sent _ (by omega)
      | true =>
        cases hmk : MustNewConstMetric mm.desc mm.vtype (value.mul mm.multiplier) labelValues with
        | error p =>
          simp only [hget, hf, hmk]
          exact Or.inr ⟨p, (MustNewConstMetric_error _ _ _ _ _ hmk).1, rfl⟩
        | ok metric =>
          simp only [hget, hf, hmk]
          exact ih (idx + 1) _ errs (by omega)

/-- Names outside the columns left keep their entry in the index map. -/
theorem MetricMapNamespace.Query.columnIdx_lookup_absent (name : String) (rest : List String) :
    ∀ (i : Nat) (acc : GoMap Nat), name ∉ rest →
      GoMap.lookup (MetricMapNamespace.Query.columnIdx i rest acc) name = acc.lookup name := by
  induction rest with
  | nil => intro i acc _; rfl
  | cons n tl ih =>
    intro i acc h
    simp only [List.mem_cons, not_or] at h
    rw [MetricMapNamespace.Query.columnIdx, ih (i + 1) _ h.2,
      GoMap.lookup_insert_other _ _ _ _ (fun hn => h.1 hn.symm)]

/-- Every column name left is mapped to a position that holds it. -/
theorem MetricMapNamespace.Query.columnIdx_lookup_mem (name : String) (rest : List String) :
    ∀ (i : Nat) (acc : GoMap Nat), name ∈ rest →
      ∃ j, GoMap.lookup (MetricMapNamespace.Query.columnIdx i rest acc) name = some j ∧
        i ≤ j ∧ rest[j - i]? = some name := by
  induction rest with
  | nil => intro i acc h; simp at h
  | cons n tl ih =>
    intro i acc h
    rw [MetricMapNamespace.Query.columnIdx]
    by_cases htl : name ∈ tl
    · obtain ⟨j, hj, hle, hget⟩ := ih (i + 1) (acc.insert n i) htl
      refine ⟨j, hj, by omega, ?_⟩
      have hji : j - i = (j - (i + 1)) + 1 := by omega
      rw [hji, List.getElem?_cons_succ]
      exact hget
    · have hn : name = n := by
        rcases List.mem_cons.mp h with h1 | h1
        · exact h1
        · exact absurd h1 htl
      subst hn
      refine ⟨i, ?_, le_refl _, by simp⟩
      rw [MetricMapNamespace.Query.columnIdx_lookup_absent name tl (i + 1) _ htl,
        GoMap.lookup_insert_self]

/-- The row buffers `Query` hands to the strategy are well formed: one data
slot per column name, and each column name indexed at a position holding it. -/
theorem rowBuffer_wellFormed (columnNames : List String) (values : List DBValue)
    (h : values.length = columnNames.length) :
    (rowBuffer columnNames values).ColumnData.length =
      (rowBuffer columnNames values).ColumnNames.length ∧
    (∀ name ∈ (rowBuffer columnNames values).ColumnNames, ∃ i,
      (rowBuffer columnNames values).ColumnIdx.lookup name = some i ∧
      (rowBuffer columnNames values).ColumnNames[i]? = some name) := by
  refine ⟨h, ?_⟩
  intro name hname
  obtain ⟨j, hj, _, hget⟩ :=
    MetricMapNamespace.Query.columnIdx_lookup_mem name columnNames 0 [] hname
  exact ⟨j, hj, by simpa using hget⟩

/-- C20: on a row buffer whose data array is as long as its list of column
names and whose index lookup sends each column name to a position holding
that name, and for a mapping whose label names all occur among the column
names, `metricRowConverter` reads no slot of the row data out of range and
returns no fatal error. -/
theorem C20_row_converter_safe (m : MetricMapNamespace) (result : rowResult)
    (hlen : result.ColumnData.length = result.ColumnNames.length)
    (hidx : ∀ name ∈ result.ColumnNames, ∃ i,
      result.ColumnIdx.lookup name = some i ∧ result.ColumnNames[i]? = some name)
    (hlabels : ∀ name ∈ m.labels, name ∈ result.ColumnNames) :
    (metricRowConverter m result).outcome ≠ .panicked .indexOutOfRange ∧
    (∀ nonFatal fatal, (metricRowConverter m result).outcome ≠ .returned nonFatal (some fatal)) ∧
    (∀ name ∈ m.labels, result.ColumnIdx.index name < result.ColumnData.length) := by
  have hrange : ∀ name ∈ m.labels, result.ColumnIdx.index name < result.ColumnData.length := by
    intro name hname
    obtain ⟨i, hlook, hget⟩ := hidx name (hlabels name hname)
    have hi : i < result.ColumnNames.length := by
      by_contra hge
      rw [List.getElem?_eq_none (by omega)] at hget
      exact absurd hget (by simp)
    simp only [GoMap.index, hlook]
    omega
  obtain ⟨lv, hlv⟩ := metricRowConverter.labelValues_in_range result m.labels [] hrange
  have hcols := metricRowConverter.columns_safe m result lv result.ColumnNames 0 [] []
    (by omega)
  unfold metricRowConverter
  rw [hlv]
  simp only
  rcases hcols with ⟨nonFatal, h⟩ | ⟨p, hp, h⟩
  · rw [h]
    exact ⟨by simp, by simp, hrange⟩
  · rw [h]
    exact ⟨by simpa using hp, by simp, hrange⟩

/-- C20 (witness): the row buffer `Query` builds for the columns `name`,
`waiting` and a row of two values, with the label `name`. -/
theorem C20_row_converter_safe_witness :
    (metricRowConverter
        (makeDescMap.convert "pgbouncer" "pools"
          [("name", ⟨.LABEL, "", "n"⟩), ("waiting", ⟨.COUNTER, "", "w"⟩)] .metricRowConverter)
        (rowBuffer ["name", "waiting"] [.bytes "db1", .int64 3])).outcome
      ≠ .panicked .indexOutOfRange :=
  (C20_row_converter_safe
    (makeDescMap.convert "pgbouncer" "pools"
      [("name", ⟨.LABEL, "", "n"⟩), ("waiting", ⟨.COUNTER, "", "w"⟩)] .metricRowConverter)
    (rowBuffer ["name", "waiting"] [.bytes "db1", .int64 3])
    (rowBuffer_wellFormed ["name", "waiting"] [.bytes "db1", .int64 3] rfl).1
    (rowBuffer_wellFormed ["name", "waiting"] [.bytes "db1", .int64 3] rfl).2
    (by
      intro name hname
      have hl : (makeDescMap.convert "pgbouncer" "pools"
          [("name", ⟨.LABEL, "", "n"⟩), ("waiting", ⟨.COUNTER, "", "w"⟩)]
          .metricRowConverter).labels = ["name"] := by decide
      rw [hl, List.mem_singleton] at hname
      subst hname
      decide)).1

end PgbouncerExporter
